import Mathlib

/-!
Verification development for the audio cache/resolution pipeline of
`redbot/cogs/audio/apis/interface.py` (class `AudioAPIInterface`).

The Python code is shallowly embedded: every external collaborator
(Spotify/YouTube clients, the playable-track provider, the local cache
store, the content filter, the notifier and `random.choice`) is passed in
as an explicit outcome/oracle parameter, and each method becomes a pure
Lean function from its inputs and those oracles to its observable
behaviour: the value it returns (or the exception it raises, as an
`Except`), the write tasks it stages via `append_task`, the progress
notifications it sends, and the user-visible notices it shows.
-/

mutual

/-- A Python value, as needed by the embedded code: `None`, booleans,
integers, strings, lists, tuples and string-keyed dicts (lists and
dicts are their own inductive types so that all recursion over values
is structural). -/
inductive PyVal where
  | none
  | bool (b : Bool)
  | int (n : Int)
  | str (s : String)
  | list (xs : PyList)
  | tuple (xs : PyList)
  | dict (kvs : PyDict)
deriving DecidableEq

/-- A Python list/tuple body. -/
inductive PyList where
  | nil
  | cons (v : PyVal) (rest : PyList)
deriving DecidableEq

/-- A Python string-keyed dict body, in insertion order. -/
inductive PyDict where
  | nil
  | cons (k : String) (v : PyVal) (rest : PyDict)
deriving DecidableEq

end

/-- Build a `PyList` from a `List`. -/
def PyList.ofList : List PyVal → PyList
  | [] => .nil
  | v :: rest => .cons v (PyList.ofList rest)

/-- Turn a `PyList` back into a `List`. -/
def PyList.toList : PyList → List PyVal
  | .nil => []
  | .cons v rest => v :: rest.toList

/-- Whether a `PyList` is empty. -/
def PyList.isNil : PyList → Bool
  | .nil => true
  | .cons _ _ => false

/-- Whether a `PyDict` is empty. -/
def PyDict.isNil : PyDict → Bool
  | .nil => true
  | .cons _ _ _ => false

/-- `d.get(k)`: first binding of `k`, if any. -/
def PyDict.get : PyDict → String → Option PyVal
  | .nil, _ => Option.none
  | .cons k' v rest, k => if k' = k then some v else rest.get k

/-- `d[k] = v`: replace the binding of `k` (keeping its position) or
append it. -/
def PyDict.set : PyDict → String → PyVal → PyDict
  | .nil, k, v => .cons k v .nil
  | .cons k' v' rest, k, v =>
    if k' = k then .cons k v rest else .cons k' v' (rest.set k v)

/-- Build a `PyDict` from a list of pairs. -/
def PyDict.ofPairs : List (String × PyVal) → PyDict
  | [] => .nil
  | (k, v) :: rest => .cons k v (PyDict.ofPairs rest)

/-- A Python list value from a Lean list. -/
def pyL (xs : List PyVal) : PyVal := .list (PyList.ofList xs)

/-- A Python tuple value from a Lean list. -/
def pyT (xs : List PyVal) : PyVal := .tuple (PyList.ofList xs)

/-- A Python dict value from a Lean list of pairs. -/
def pyD (kvs : List (String × PyVal)) : PyVal := .dict (PyDict.ofPairs kvs)

/-- Python truthiness for `PyVal`. -/
def pyTruthy : PyVal → Bool
  | .none => false
  | .bool b => b
  | .int n => n != 0
  | .str s => s ≠ ""
  | .list xs => !xs.isNil
  | .tuple xs => !xs.isNil
  | .dict kvs => !kvs.isNil

/-- `isinstance(v, list)`. -/
def isList : PyVal → Bool
  | .list _ => true
  | _ => false

/-- `isinstance(v, dict)`. -/
def isDict : PyVal → Bool
  | .dict _ => true
  | _ => false

/-- `d.get(k)` for a dict value; `None`-like absence is `none`. -/
def dictGet (d : PyVal) (k : String) : Option PyVal :=
  match d with
  | .dict kvs => kvs.get k
  | _ => Option.none

/-- `d[k] = v` for a dict value (other values returned unchanged). -/
def dictSet (d : PyVal) (k : String) (v : PyVal) : PyVal :=
  match d with
  | .dict kvs => .dict (kvs.set k v)
  | other => other

/-- Truthiness of an optional Python string (`None` and `""` are falsy). -/
def pyStrTruthy : Option String → Bool
  | Option.none => false
  | some s => s ≠ ""

/-- Escape `"` and `\` in a character sequence, as JSON string
serialization does. -/
def jsonEscapeChars : List Char → List Char
  | [] => []
  | c :: rest =>
    if c = '\"' ∨ c = '\\' then '\\' :: c :: jsonEscapeChars rest
    else c :: jsonEscapeChars rest

/-- Escape `"` and `\` as in JSON string serialization. -/
def jsonEscape (s : String) : String := ⟨jsonEscapeChars s.toList⟩

mutual

/-- `json.dumps(v)`. Tuples serialize as JSON arrays, as in Python. -/
def jsonDumps : PyVal → String
  | .none => "null"
  | .bool b => if b then "true" else "false"
  | .int n => toString n
  | .str s => "\"" ++ jsonEscape s ++ "\""
  | .list xs => "[" ++ jsonDumpsItems xs ++ "]"
  | .tuple xs => "[" ++ jsonDumpsItems xs ++ "]"
  | .dict kvs => "\x7b" ++ jsonDumpsEntries kvs ++ "\x7d"

/-- Serialize the values of a list, `", "`-separated. -/
def jsonDumpsItems : PyList → String
  | .nil => ""
  | .cons x .nil => jsonDumps x
  | .cons x (.cons y rest) => jsonDumps x ++ ", " ++ jsonDumpsItems (.cons y rest)

/-- Serialize dict entries as `"key": value`, `", "`-separated. -/
def jsonDumpsEntries : PyDict → String
  | .nil => ""
  | .cons k v .nil => "\"" ++ jsonEscape k ++ "\": " ++ jsonDumps v
  | .cons k v (.cons k2 v2 rest) =>
    "\"" ++ jsonEscape k ++ "\": " ++ jsonDumps v ++ ", " ++
      jsonDumpsEntries (.cons k2 v2 rest)

end

/-- `needle` is a prefix of `hay` (over characters). -/
def charPrefix : List Char → List Char → Bool
  | [], _ => true
  | _ :: _, [] => false
  | a :: as, b :: bs => a = b && charPrefix as bs

/-- `needle` occurs somewhere in `hay` (over characters). -/
def charInfix (needle : List Char) : List Char → Bool
  | [] => charPrefix needle []
  | c :: rest => charPrefix needle (c :: rest) || charInfix needle rest

/-- Python's `k in data` for strings: substring containment. -/
def pyIn (needle hay : String) : Bool :=
  charInfix needle.toList hay.toList

/-!
## Deferred write queue

`self._tasks : MutableMapping` maps a request (message) id to a pending
set `{"update": [...], "insert": [...], "global": [...]}` of staged
`(table, payload)` tuples. `append_task` stages, `run_tasks` /
`run_all_pending_tasks` flush, `route_tasks` dispatches one batch of
operations to the local cache store.
-/

/-- The three categories of a pending task set (the dict keys
`"update"`, `"insert"`, `"global"`, in insertion order). -/
inductive Category where
  | update
  | insert
  | globalCat
deriving DecidableEq, Repr

/-- One request id's pending set: three ordered lists of staged
`(table, payload)` tuples, encoded as `PyVal.tuple`s exactly as the
call sites build them. -/
structure TaskSet where
  update : List PyVal
  insert : List PyVal
  globalCat : List PyVal

/-- The empty pending set `{"update": [], "insert": [], "global": []}`. -/
def TaskSet.empty : TaskSet := ⟨[], [], []⟩

/-- The queue's map of pending sets, in insertion order. -/
abbrev QState := List (Nat × TaskSet)

/-- `lock_id in self._tasks`. -/
def qfind : QState → Nat → Option TaskSet
  | [], _ => Option.none
  | (k, ts) :: rest, i => if k = i then some ts else qfind rest i

/-- `del self._tasks[i]`. -/
def qerase : QState → Nat → QState
  | [], _ => []
  | (k, ts) :: rest, i => if k = i then rest else (k, ts) :: qerase rest i

/-- Append one staged tuple to the given category of a pending set. -/
def TaskSet.push (ts : TaskSet) (c : Category) (t : PyVal) : TaskSet :=
  match c with
  | .update => { ts with update := ts.update ++ [t] }
  | .insert => { ts with insert := ts.insert ++ [t] }
  | .globalCat => { ts with globalCat := ts.globalCat ++ [t] }

/-- `append_task(ctx, event, task, _id=None)`: `lock_id = _id or
ctx.message.id` (note Python `or`: an `_id` of `0` is falsy and falls
back to the context's message id); a missing pending set is created
empty, then the task tuple is appended to the `event` category. -/
def append_task (st : QState) (ctxMessageId : Nat) (event : Category)
    (task : PyVal) (id? : Option Nat) : QState :=
  let lock_id :=
    match id? with
    | some i => if i = 0 then ctxMessageId else i
    | Option.none => ctxMessageId
  match qfind st lock_id with
  | Option.none => st ++ [(lock_id, TaskSet.empty.push event task)]
  | some ts =>
    st.map (fun p => if p.1 = lock_id then (p.1, ts.push event task) else p)

/-- One storage call made by `route_tasks`: the method (`"insert"` or
`"update"`), the provider table, and the data passed to it. -/
structure WriteOp where
  action : String
  table : String
  data : PyVal

/-- The storage calls `route_tasks(action_type, table, data)` performs:
nothing if `data` is falsy; an insert if `action_type == "insert"` and
`data` is a list and the table is one of the three provider tables; an
update if `action_type == "update"`. -/
def route_tasks_writes (action_type table data : PyVal) : List WriteOp :=
  if pyTruthy data = false then []
  else
    match action_type with
    | .str s =>
      if s = "insert" ∧ isList data = true then
        match table with
        | .str "lavalink" => [⟨"insert", "lavalink", data⟩]
        | .str "youtube" => [⟨"insert", "youtube", data⟩]
        | .str "spotify" => [⟨"insert", "spotify", data⟩]
        | _ => []
      else if s = "update" then
        match table with
        | .str "lavalink" => [⟨"update", "lavalink", data⟩]
        | .str "youtube" => [⟨"update", "youtube", data⟩]
        | .str "spotify" => [⟨"update", "spotify", data⟩]
        | _ => []
      else []
    | _ => []

/-- Running one `route_tasks` coroutine under a failure oracle: the
storage calls it makes (each awaited in turn) and whether one of them
raised. A raised storage call was still attempted before raising. -/
def routeTasksRun (fail : WriteOp → Bool) (action_type table data : PyVal) :
    List WriteOp × Bool :=
  let ws := route_tasks_writes action_type table data
  (ws, ws.any fail)

/-- `self.route_tasks(*args)` for a list of positional arguments, with
the declared defaults `action_type=None, table=None, data=None`.
More than three positional arguments is a `TypeError`, raised already
when the coroutine is created inside the list comprehension (before
`asyncio.gather` runs), modelled as `Except.error`. -/
def callRouteTasks (fail : WriteOp → Bool) (args : List PyVal) :
    Except Unit (List WriteOp × Bool) :=
  match args with
  | [] => .ok (routeTasksRun fail .none .none .none)
  | [a] => .ok (routeTasksRun fail a .none .none)
  | [a, b] => .ok (routeTasksRun fail a b .none)
  | [a, b, c] => .ok (routeTasksRun fail a b c)
  | _ => .error ()

/-- The `asyncio.gather(*[self.route_tasks(*tasks[a]) for a in tasks],
return_exceptions=True)` of `run_tasks`: the dict keys iterate in
insertion order `update, insert, global`; a `TypeError` while building
the comprehension aborts the gather (no storage call runs); an
exception raised inside a coroutine is captured by
`return_exceptions=True` and its result discarded (the discarded
per-coroutine raised-flags below), so individual failures neither
propagate nor stop the other coroutines' calls. -/
def gatherWrites (fail : WriteOp → Bool) (ts : TaskSet) :
    Except Unit (List WriteOp) := do
  let (w1, _) ← callRouteTasks fail ts.update
  let (w2, _) ← callRouteTasks fail ts.insert
  let (w3, _) ← callRouteTasks fail ts.globalCat
  pure (w1 ++ w2 ++ w3)

/-- The `async with self._lock` section of `run_tasks`, given the
computed `lock_id` and the optional context message id. Faithful to
the source: the membership test uses `lock_id`, but the read and the
delete use `ctx.message.id` — with `ctx` absent (`None`) that is an
`AttributeError`, and with `ctx.message.id` not in the map a
`KeyError`, both swallowed by the surrounding `except Exception`
block, leaving the state unchanged. A `TypeError` from the gather
comprehension is likewise swallowed (but the delete already
happened). -/
def run_tasks_locked (fail : WriteOp → Bool) (st : QState) (lock_id : Nat)
    (ctx? : Option Nat) : QState × List WriteOp :=
  if (qfind st lock_id).isSome then
    match ctx? with
    | Option.none => (st, [])
    | some c =>
      match qfind st c with
      | Option.none => (st, [])
      | some ts =>
        let st' := qerase st c
        match gatherWrites fail ts with
        | .error _ => (st', [])
        | .ok ws => (st', ws)
  else (st, [])

/-- `run_tasks(ctx=None, message_id=None)`, returning `none` when the
call raises to its caller (the `AttributeError` from `lock_id =
message_id if message_id is not None else ctx.message.id` when both
are absent), and otherwise the new queue state together with the
storage calls performed, via the locked section. `fail` assigns an
outcome to every storage operation (`true` = that operation raises);
failures are captured by `return_exceptions=True` and by the
surrounding `try/except`, so they are logged and discarded. -/
def run_tasks (fail : WriteOp → Bool) (st : QState)
    (ctxMessageId message_id : Option Nat) :
    Option (QState × List WriteOp) :=
  match message_id, ctxMessageId with
  | Option.none, Option.none => Option.none
  | some m, cid => some (run_tasks_locked fail st m cid)
  | Option.none, some c => some (run_tasks_locked fail st c (some c))

/-- `run_all_pending_tasks()`: groups every outstanding pending set's
category lists into `tasks = {"update": [...], "insert": [...],
"global": [...]}` (each element being one request's whole list), clears
`self._tasks`, and gathers `route_tasks(*tasks[a])` per category with
`return_exceptions=True`; any exception is caught and logged. Returns
the new (empty) state and the storage calls performed. -/
def run_all_pending_tasks (fail : WriteOp → Bool) (st : QState) :
    QState × List WriteOp :=
  let grouped_update := st.map (fun p => pyL p.2.update)
  let grouped_insert := st.map (fun p => pyL p.2.insert)
  let grouped_global := st.map (fun p => pyL p.2.globalCat)
  let st' : QState := []
  match (do
      let (w1, _) ← callRouteTasks fail grouped_update
      let (w2, _) ← callRouteTasks fail grouped_insert
      let (w3, _) ← callRouteTasks fail grouped_global
      pure (w1 ++ w2 ++ w3) : Except Unit (List WriteOp)) with
  | .error _ => (st', [])
  | .ok ws => (st', ws)

/-!
## Resolution pipeline: staged tasks, `LoadResult`, `fetch_track`

Pipeline methods stage write intents through `append_task(ctx, event,
(table, payload))`; a staged intent is recorded here as a `Staged`
value. External collaborator outcomes (local-cache `fetch_one`, the
YouTube client, `player.load_tracks`) are oracle fields of the
environment records.
-/

/-- One write intent staged via `append_task`: the event (`"update"` or
`"insert"`), the provider table, and the payload of the staged tuple. -/
structure Staged where
  event : String
  table : String
  payload : PyVal

/-- Whether a staged task is an insert into the Lavalink table. -/
def Staged.isLavalinkInsert (s : Staged) : Bool :=
  s.event = "insert" && s.table = "lavalink"

/-- Modelled from the spec (§6, the playable-track provider is an
external collaborator): a `LoadResult` holds the raw response dict it
was built from, a status tag, an error flag (set when the status is the
failed status), and the ordered track list. -/
structure LoadResult where
  raw : PyVal
  load_type : String
  has_error : Bool
  tracks : List PyVal

/-- Modelled from the spec: building a `LoadResult` from a response
dict; a missing/unusable status tag falls back to the failed status,
and a missing track list to the empty list. -/
def LoadResult.ofDict (d : PyVal) : LoadResult :=
  let lt := match dictGet d "loadType" with
    | some (.str s) => s
    | _ => "LOAD_FAILED"
  let tr := match dictGet d "tracks" with
    | some (.list xs) => xs.toList
    | _ => []
  ⟨d, lt, lt = "LOAD_FAILED", tr⟩

/-- The dict `{"loadType": "LOAD_FAILED", "playlistInfo": {},
"tracks": []}` substituted by `fetch_track` when no result was
obtained. -/
def loadFailedDict : PyVal :=
  pyD [("loadType", .str "LOAD_FAILED"), ("playlistInfo", pyD []),
    ("tracks", pyL [])]

/-- The shape check of `fetch_track` before staging a Lavalink insert:
`all(k in data for k in ["loadType", "playlistInfo", "isSeekable",
"isStream"])` where `data` is the `json.dumps` STRING — i.e. substring
containment in the serialized text. -/
def hasAllShapeSubstrings (data : String) : Bool :=
  ["loadType", "playlistInfo", "isSeekable", "isStream"].all
    (fun k => pyIn k data)

/-- The claim's validation predicate, stated from the spec's words for
comparison with the code's check: all four required shape keys present
as top-level keys of the response dict. -/
def hasRequiredTopLevelKeys (d : PyVal) : Bool :=
  ["loadType", "playlistInfo", "isSeekable", "isStream"].all
    (fun k => (dictGet d k).isSome)

/-- `if data.get("loadType") == "V2_COMPACT": data["loadType"] =
"V2_COMPAT"` as applied to a cached payload before decoding it. -/
def v2compatFix (d : PyVal) : PyVal :=
  match dictGet d "loadType" with
  | some (.str s) => if s = "V2_COMPACT" then dictSet d "loadType" (.str "V2_COMPAT") else d
  | _ => d

/-- Exceptions `fetch_track` can raise to its caller. -/
inductive FetchErr where
  | trackEnqueue
deriving DecidableEq, Repr

/-- Outcome of `player.load_tracks(query)`: a returned result (possibly
`None`), a `KeyError`, or a `RuntimeError`. -/
inductive LoadOutcome where
  | ok (res : Option PyVal)
  | keyError
  | runtimeError

/-- Environment of one `fetch_track` call: the configured cache scope
bit for the Lavalink table, whether the processed query is a local
file, the normalized query string `str(_raw_query)`, the local cache
`fetch_one` outcome (`.error` = the storage call raised), the
`player.load_tracks` outcome, and the current timestamp. -/
structure FetchEnv where
  cache_enabled : Bool
  is_local : Bool
  query : String
  cacheFetch : Except Unit (Option PyVal)
  loadOutcome : LoadOutcome
  now : Nat

/-- The update task `("update", ("lavalink", {"query": query}))`. -/
def lavalinkUpdateTask (q : String) : Staged :=
  ⟨"update", "lavalink", pyD [("query", .str q)]⟩

/-- The insert task `("insert", ("lavalink", [{"query": ..., "data":
..., "last_updated": ..., "last_fetched": ...}]))`. -/
def lavalinkInsertTask (q data : String) (now : Nat) : Staged :=
  ⟨"insert", "lavalink",
    pyL [pyD [("query", .str q), ("data", .str data),
      ("last_updated", .int now), ("last_fetched", .int now)]]⟩

/-- The shared tail of `fetch_track`: a recorded exception propagates;
otherwise the `LOAD_FAILED` default is substituted when no result was
obtained, and an insert is staged iff the scope is enabled, the
result's status tag is truthy, the error flag is clear, the query is
not local, the track list is nonempty, and the serialized payload
passes the substring shape check. -/
def fetch_track_finish (env : FetchEnv) (staged2 : List Staged)
    (res? : Option LoadResult) (called_api : Bool) (err? : Option FetchErr) :
    List Staged × Except FetchErr (LoadResult × Bool) :=
  match err? with
  | some e => (staged2, .error e)
  | Option.none =>
    let results := match res? with
      | some r => r
      | Option.none => LoadResult.ofDict loadFailedDict
    let staged3 :=
      if env.cache_enabled = true ∧ results.load_type ≠ "" ∧
          results.has_error = false ∧ env.is_local = false ∧
          results.tracks.isEmpty = false then
        let data := jsonDumps results.raw
        if hasAllShapeSubstrings data then
          staged2 ++ [lavalinkInsertTask env.query data env.now]
        else staged2
      else staged2
    (staged3, .ok (results, called_api))

/-- The staging condition on the returned result, as the code enforces
it (with the shape check being substring containment in the serialized
JSON text): truthy status tag, error flag clear, nonempty track list,
all four shape key strings contained in the serialized payload. -/
def stagesLavalinkInsert (r : LoadResult) : Prop :=
  r.load_type ≠ "" ∧ r.has_error = false ∧ r.tracks ≠ [] ∧
    hasAllShapeSubstrings (jsonDumps r.raw) = true

/-- Body of `fetch_track(ctx, player, query, forced, lazy, ...)`.
`rec` is the outcome of the recursive `fetch_track(ctx, player,
_raw_query, forced=True)` call made when a cached payload decodes to an
errored result; `fetch_track` below ties the knot (the recursive call
passes `forced=True`, under which this body never consults `rec`).

Returns the staged tasks (in staging order) and either the raised
exception or the returned `(LoadResult, called_api)` pair.

Transcription notes: `valid_global_entry` is initialised `False` and
never set `True` before it is read, so the `if valid_global_entry`
branch is dead; the `update` flag returned by `fetch_one` is never
read; a cached value is kept only when it is a truthy dict, in which
case a Lavalink `update` task is staged; when no result was obtained
the `LOAD_FAILED` default is substituted; finally an insert is staged
iff the scope is enabled, the result's status tag is truthy, the error
flag is clear, the query is not local, the track list is nonempty, and
the serialized payload passes the substring shape check. -/
def fetch_track_body (rec : List Staged × Except FetchErr (LoadResult × Bool))
    (env : FetchEnv) (forced lazy : Bool) :
    List Staged × Except FetchErr (LoadResult × Bool) :=
  let inCacheBranch := env.cache_enabled && !forced && !env.is_local
  let val0 : Option PyVal :=
    if inCacheBranch then
      match env.cacheFetch with
      | .error _ => Option.none
      | .ok v => v
    else Option.none
  let hit : Bool :=
    match val0 with
    | some v => pyTruthy v && isDict v
    | Option.none => false
  let staged1 : List Staged := if hit then [lavalinkUpdateTask env.query] else []
  let val1 : Option PyVal := if hit then val0 else Option.none
  let (staged2, res?, called_api, err?) :
      List Staged × Option LoadResult × Bool × Option FetchErr :=
    if lazy then (staged1, Option.none, false, Option.none)
    else
      match val1, forced with
      | some v, false =>
        let data := dictSet v "query" (.str env.query)
        let data := v2compatFix data
        let r := LoadResult.ofDict data
        if r.has_error then
          match rec with
          | (recStaged, .ok (r2, a2)) =>
            (staged1 ++ recStaged, some r2, a2, Option.none)
          | (recStaged, .error e) =>
            (staged1 ++ recStaged, Option.none, false, some e)
        else (staged1, some r, false, Option.none)
      | _, _ =>
        match env.loadOutcome with
        | .ok (some raw) => (staged1, some (LoadResult.ofDict raw), true, Option.none)
        | .ok Option.none => (staged1, Option.none, true, Option.none)
        | .keyError => (staged1, Option.none, true, Option.none)
        | .runtimeError => (staged1, Option.none, true, some FetchErr.trackEnqueue)
  fetch_track_finish env staged2 res? called_api err?

/-- `fetch_track`: the body, with the recursive `forced=True` call
instantiated once (that instance never recurses further, see
`fetch_track_body_forced_ignores_rec`). -/
def fetch_track (env : FetchEnv) (forced lazy : Bool) :
    List Staged × Except FetchErr (LoadResult × Bool) :=
  fetch_track_body (fetch_track_body ([], .error .trackEnqueue) env true false)
    env forced lazy

/-!
## YouTube-side queries
-/

/-- `_youtube_first_time_query(ctx, track_info, ...)`: calls the
YouTube client (outcome `apiResult`) and, if the YouTube scope is
enabled and the URL truthy, stages an insert; returns the URL. -/
def youtube_first_time_query (cache_enabled : Bool) (track_info : String)
    (apiResult : Option String) (now : Nat) : List Staged × Option String :=
  let staged :=
    if cache_enabled && pyStrTruthy apiResult then
      [⟨"insert", "youtube",
        pyL [pyD [("track_info", .str track_info),
          ("track_url", .str (apiResult.getD "")),
          ("last_updated", .int now), ("last_fetched", .int now)]]⟩]
    else []
  (staged, apiResult)

/-- The update task `("update", ("youtube", {"track": track_info}))`. -/
def youtubeUpdateTask (track_info : String) : Staged :=
  ⟨"update", "youtube", pyD [("track", .str track_info)]⟩

/-- Environment of one `youtube_query` call. -/
structure YTEnv where
  cache_enabled : Bool
  track_info : String
  cacheFetch : Except Unit (Option String)
  apiResult : Option String
  now : Nat

/-- `youtube_query(ctx, track_info)`: a cache read (storage errors
caught, leaving `val` as `None`), then either the first-time API query
or the cached URL with a staged timestamp update. -/
def youtube_query (env : YTEnv) : List Staged × Option String :=
  let val : Option String :=
    if env.cache_enabled then
      match env.cacheFetch with
      | .error _ => Option.none
      | .ok v => v
    else Option.none
  match val with
  | Option.none =>
    youtube_first_time_query env.cache_enabled env.track_info env.apiResult env.now
  | some v =>
    let staged :=
      if env.cache_enabled then [youtubeUpdateTask env.track_info] else []
    (staged, some v)

/-!
## Spotify-side queries and the enqueue loop
-/

/-- The 7-tuple returned by
`self.spotify_api.get_spotify_track_info(track)`. -/
structure SpotifyTrackInfo where
  song_url : String
  track_info : String
  uri : String
  artist_name : String
  track_name : String
  idStr : String
  typeStr : String
deriving Inhabited, DecidableEq, Repr

/-- The database entry dict appended to `database_entries` for one
Spotify track. -/
def spotifyEntry (m : SpotifyTrackInfo) (now : Nat) : PyVal :=
  pyD [("id", .str m.idStr), ("type", .str m.typeStr), ("uri", .str m.uri),
    ("track_name", .str m.track_name), ("artist_name", .str m.artist_name),
    ("song_url", .str m.song_url), ("track_info", .str m.track_info),
    ("last_updated", .int now), ("last_fetched", .int now)]

/-- The per-track YouTube lookup shared by `_spotify_first_time_query`
and `spotify_enqueue` (Stage B): try the YouTube table if the scope is
enabled (a storage exception is caught and leaves `val` as `None`),
fall back to `_youtube_first_time_query` when `val is None` (which may
stage an insert), then stage a timestamp update when the scope is
enabled and `val` truthy (in `spotify_enqueue` the extra `llresponse is
None` conjunct always holds since `llresponse` is never assigned a
value). Returns the staged tasks and `val`. -/
def stage_b_youtube_lookup (youtube_cache : Bool) (track_info : String)
    (cacheFetch : Except Unit (Option String)) (apiResult : Option String)
    (now : Nat) : List Staged × Option String :=
  let val : Option String :=
    if youtube_cache then
      match cacheFetch with
      | .error _ => Option.none
      | .ok v => v
    else Option.none
  let (stg, val) :=
    match val with
    | Option.none => youtube_first_time_query youtube_cache track_info apiResult now
    | some v => ([], some v)
  let stg :=
    if youtube_cache && pyStrTruthy val then stg ++ [youtubeUpdateTask track_info]
    else stg
  (stg, val)

/-- One input track of `_spotify_first_time_query`: whether its error
message is `"invalid id"`, its extracted info, and the collaborator
outcomes of its Stage-B lookup. -/
structure SftqTrack where
  invalid : Bool
  meta : SpotifyTrackInfo
  cacheFetch : Except Unit (Option String)
  apiResult : Option String

/-- Environment of one `_spotify_first_time_query` call (the notifier
is present; `youtube_cache` / `spotify_cache` are the scope bits of
`current_cache_level`). -/
structure SftqEnv where
  tracks : List SftqTrack
  skip_youtube : Bool
  youtube_cache : Bool
  spotify_cache : Bool
  now : Nat

/-- Observable accumulator of `_spotify_first_time_query`: collected
YouTube URLs, `database_entries`, staged tasks, `(current, total)`
notifications, and the 1-based `track_count`. -/
structure SftqAcc where
  urls : List String
  entries : List PyVal
  staged : List Staged
  notifies : List (Nat × Nat)
  count : Nat

/-- One iteration of the `for track in tracks` loop of
`_spotify_first_time_query`: skip `"invalid id"` tracks; append the
database entry; unless `skip_youtube`, do the Stage-B lookup and append
a truthy URL, else append `track_info` itself; then increment
`track_count` and notify when it is even or equals `total_tracks`. -/
def sftq_step (env : SftqEnv) (total : Nat) (t : SftqTrack) (acc : SftqAcc) :
    SftqAcc :=
  if t.invalid then acc
  else
    let acc := { acc with entries := acc.entries ++ [spotifyEntry t.meta env.now] }
    let acc :=
      if env.skip_youtube = false then
        let (stg, val) := stage_b_youtube_lookup env.youtube_cache
          t.meta.track_info t.cacheFetch t.apiResult env.now
        let acc := { acc with staged := acc.staged ++ stg }
        match val with
        | some s => if s = "" then acc else { acc with urls := acc.urls ++ [s] }
        | Option.none => acc
      else { acc with urls := acc.urls ++ [t.meta.track_info] }
    let c := acc.count + 1
    let acc := { acc with count := c }
    if c % 2 = 0 ∨ c = total then
      { acc with notifies := acc.notifies ++ [(c, total)] }
    else acc

/-- The track loop of `_spotify_first_time_query`. -/
def sftq_loop (env : SftqEnv) (total : Nat) :
    List SftqTrack → SftqAcc → SftqAcc
  | [], acc => acc
  | t :: rest, acc => sftq_loop env total rest (sftq_step env total t acc)

/-- `_spotify_first_time_query(ctx, query_type, uri, notifier, ...)`:
run the loop over the fetched tracks (with `total_tracks =
len(tracks)`), then stage the Spotify insert of `database_entries` when
the Spotify scope is enabled. -/
def spotify_first_time_query (env : SftqEnv) : SftqAcc :=
  let total := env.tracks.length
  let acc := sftq_loop env total env.tracks ⟨[], [], [], [], 0⟩
  if env.spotify_cache then
    { acc with staged := acc.staged ++ [⟨"insert", "spotify", pyL acc.entries⟩] }
  else acc

/-- Environment of one `spotify_query` call; the Spotify-scope bit and
the follow-on `_spotify_first_time_query` inputs live in `sftq`. -/
structure SpQEnv where
  query_type : String
  uri : String
  cacheFetch : Except Unit (Option String)
  sftq : SftqEnv

/-- `spotify_query(ctx, query_type, uri, ...)`: for a `"track"` query
with the Spotify scope enabled, try the Spotify table (storage errors
caught, `val = None`); on a miss run the first-time query, on a hit
stage a timestamp update and return the cached value. Returns
`(staged tasks, youtube_urls, notifications)`. -/
def spotify_query (env : SpQEnv) :
    List Staged × List String × List (Nat × Nat) :=
  let cache_enabled := env.sftq.spotify_cache
  let val : Option String :=
    if env.query_type = "track" ∧ cache_enabled = true then
      match env.cacheFetch with
      | .error _ => Option.none
      | .ok v => v
    else Option.none
  match val with
  | Option.none =>
    let o := spotify_first_time_query env.sftq
    (o.staged, o.urls, o.notifies)
  | some v =>
    let staged :=
      if env.query_type = "track" ∧ cache_enabled = true then
        [⟨"update", "spotify", pyD [("uri", .str ("spotify:track:" ++ env.uri))]⟩]
      else []
    (staged, [v], [])

/-- Outcome of the `fetch_track` call made for one track of
`spotify_enqueue`, as seen by its `try/except` clauses. -/
inductive EnqFetch where
  | ok (tracks : List PyVal)
  | connReset
  | timeout
  | raiseOther

/-- One input track of `spotify_enqueue` with its collaborator
outcomes: the Stage-B lookup outcomes, the `fetch_track` outcome, the
content-filter verdict for its first track object, and the
`track_limit` verdict. -/
structure EnqTrack where
  meta : SpotifyTrackInfo
  cacheFetch : Except Unit (Option String)
  apiResult : Option String
  fetch : EnqFetch
  allowed : Bool
  withinLimit : Bool

/-- Environment of one `spotify_enqueue` call: the input tracks, the
scope bits, the `enqueue` flag, `guild_data["maxlength"]`, the initial
player-queue length, whether the player has a current track, and the
timestamp. -/
structure EnqEnv where
  tracks : List EnqTrack
  youtube_cache : Bool
  spotify_cache : Bool
  enqueue : Bool
  maxlength : Int
  queue0 : Nat
  playing0 : Bool
  now : Nat

/-- User-visible notices `spotify_enqueue` can issue via the
notifier's embeds. -/
inductive ENotice where
  | unsupported
  | connReset
  | timeout
  | tooManyFails
  | playlistEnqueued
deriving DecidableEq, Repr

/-- Observable state of the `spotify_enqueue` loop:
`consecutive_fails`, `track_list`, `has_not_allowed` (with a rejection
counter recording how often it was set), `enqueued_tracks`, the live
player-queue length, whether the player has a current track,
`database_entries`, staged tasks, `(current, total)` notifications and
issued notices. -/
structure EnqAcc where
  fails : Nat
  trackList : List PyVal
  hasNotAllowed : Bool
  rejected : Nat
  enqueued : Nat
  queueLen : Nat
  playing : Bool
  entries : List PyVal
  staged : List Staged
  notifies : List (Nat × Nat)
  notices : List ENotice

/-- Result of one loop iteration: continue, `break`, or an uncaught
exception propagating out of the loop. -/
inductive StepRes where
  | cont (a : EnqAcc)
  | brk (a : EnqAcc)
  | raised (a : EnqAcc)

/-- The accumulator carried by a step result. -/
def StepRes.acc : StepRes → EnqAcc
  | .cont a => a
  | .brk a => a
  | .raised a => a

/-- `player.add` plus the enqueue-event dispatch: one more enqueued
track, one more queued track. -/
def enqueueTrack (acc : EnqAcc) : EnqAcc :=
  { acc with enqueued := acc.enqueued + 1, queueLen := acc.queueLen + 1 }

/-- Tail of one `spotify_enqueue` iteration after `track_object` is
known: progress notification when the 0-based `track_count` is even or
equals `total_tracks`; abort once `consecutive_fails >= 10`; an empty
`track_object` increments the failure counter; otherwise the counter
resets, the first track object passes the content filter (rejection
sets `has_not_allowed` and skips), and an allowed track is appended and
(when enqueuing) added to the player respecting the 10000-track queue
cap and the per-guild `maxlength`, starting playback if idle. -/
def enq_step_rest (env : EnqEnv) (total i : Nat) (t : EnqTrack) (acc : EnqAcc)
    (track_object : List PyVal) : StepRes :=
  let acc :=
    if i % 2 = 0 ∨ i = total then
      { acc with notifies := acc.notifies ++ [(i, total)] }
    else acc
  if acc.fails ≥ 10 then
    .brk { acc with notices := acc.notices ++ [.tooManyFails] }
  else
    match track_object with
    | [] => .cont { acc with fails := acc.fails + 1 }
    | single :: _ =>
      let acc := { acc with fails := 0 }
      if t.allowed = false then
        .cont { acc with hasNotAllowed := true, rejected := acc.rejected + 1 }
      else
        let acc := { acc with trackList := acc.trackList ++ [single] }
        if env.enqueue = false then .cont acc
        else if acc.queueLen ≥ 10000 then .cont acc
        else
          let acc :=
            if env.maxlength > 0 then
              if t.withinLimit then enqueueTrack acc else acc
            else enqueueTrack acc
          let acc := if acc.playing = false then { acc with playing := true } else acc
          .cont acc

/-- One iteration of the `for track_count, track in
enumerate(tracks_from_spotify)` loop: append the database entry, do the
Stage-B lookup, then obtain `track_object` — from `fetch_track` when
`val` is truthy (a connection reset or timeout issues a notice and
breaks; any other exception propagates), and `[]` otherwise
(`llresponse` is always `None`). -/
def enq_step (env : EnqEnv) (total i : Nat) (t : EnqTrack) (acc : EnqAcc) :
    StepRes :=
  let acc := { acc with entries := acc.entries ++ [spotifyEntry t.meta env.now] }
  let (stgB, val) := stage_b_youtube_lookup env.youtube_cache
    t.meta.track_info t.cacheFetch t.apiResult env.now
  let acc := { acc with staged := acc.staged ++ stgB }
  if pyStrTruthy val then
    match t.fetch with
    | .connReset => .brk { acc with notices := acc.notices ++ [.connReset] }
    | .timeout => .brk { acc with notices := acc.notices ++ [.timeout] }
    | .raiseOther => .raised acc
    | .ok tl => enq_step_rest env total i t acc tl
  else enq_step_rest env total i t acc []

/-- How the `spotify_enqueue` loop ended. -/
inductive LoopExit where
  | finished
  | broke
  | raisedEnq
deriving DecidableEq, Repr

/-- The `spotify_enqueue` track loop. -/
def enq_loop (env : EnqEnv) (total : Nat) :
    List EnqTrack → Nat → EnqAcc → EnqAcc × LoopExit
  | [], _, acc => (acc, .finished)
  | t :: rest, i, acc =>
    match enq_step env total i t acc with
    | .cont a => enq_loop env total rest (i + 1) a
    | .brk a => (a, .broke)
    | .raised a => (a, .raisedEnq)

/-- Exceptions `spotify_enqueue` can raise to its caller. -/
inductive EnqError where
  | nothingFound
  | trackEnqueue
deriving DecidableEq, Repr

/-- The initial loop accumulator. -/
def enqAcc0 (env : EnqEnv) : EnqAcc :=
  ⟨0, [], false, 0, 0, env.queue0, env.playing0, [], [], [], []⟩

/-- `spotify_enqueue(ctx, query_type, uri, enqueue, player, lock,
notifier, ...)`: an empty Spotify listing issues the unsupported-URL
notice and returns `[]`; otherwise the loop runs; an uncaught exception
from an iteration propagates; afterwards a `SpotifyFetchError` is
raised iff `track_list` is empty and nothing was filtered; otherwise,
when enqueuing, the "Playlist Enqueued" embed is issued, and the
Spotify insert of `database_entries` is staged when the Spotify scope
is enabled. Returns the final accumulator together with the returned
`track_list` or the raised error. -/
def spotify_enqueue (env : EnqEnv) : EnqAcc × Except EnqError (List PyVal) :=
  if env.tracks.length < 1 then
    ({ enqAcc0 env with notices := [.unsupported] }, .ok [])
  else
    let r := enq_loop env env.tracks.length env.tracks 0 (enqAcc0 env)
    match r.2 with
    | .raisedEnq => (r.1, .error .trackEnqueue)
    | _ =>
      let acc := r.1
      if acc.trackList.isEmpty && !acc.hasNotAllowed then
        (acc, .error .nothingFound)
      else
        let acc :=
          if env.enqueue then
            { acc with notices := acc.notices ++ [.playlistEnqueued] }
          else acc
        let acc :=
          if env.spotify_cache then
            { acc with staged := acc.staged ++ [⟨"insert", "spotify", pyL acc.entries⟩] }
          else acc
        (acc, .ok acc.trackList)

/-!
## Autoplay selector
-/

/-- One autoplay candidate's verdicts: whether its processed query is
valid, whether it is a local file and whether that file exists, and the
content-filter verdict. -/
structure AutoTrack where
  valid_query : Bool
  is_local : Bool
  local_exists : Bool
  allowed : Bool
deriving Inhabited, DecidableEq, Repr

/-- A candidate survives the three checks of the autoplay loop: valid
query, not a missing local file, allowed by the content filter. -/
def candidateOK (t : AutoTrack) : Bool :=
  t.valid_query && !(t.is_local && !t.local_exists) && t.allowed

/-- The `while valid is False and multiple` loop of `autoplay`: each
pass decrements `tries`, raises `DatabaseError("No valid entry
found")` when it reaches 0, and otherwise draws `random.choice(tracks)`
(the oracle `draws k` gives the index of the k-th draw, reduced mod the
pool size) and accepts it iff it passes the checks. On success returns
the chosen track and the number of draws performed; on the raise
returns (as the error payload) the number of draws performed. -/
def autoplay_go (tracks : List AutoTrack) (draws : Nat → Nat) :
    Nat → Nat → Except Nat (AutoTrack × Nat)
  | 0, k => .error k
  | tries + 1, k =>
    if tries = 0 then .error k
    else
      let track := tracks.getD (draws k % tracks.length) default
      if candidateOK track then .ok (track, k + 1)
      else autoplay_go tracks draws tries (k + 1)

/-- The random-selection portion of `autoplay` over a nonempty
candidate list (the code guards it with `if tracks:`): `multiple =
len(tracks) > 1`, `valid = not multiple`, `tries = len(tracks)`; with a
single candidate the loop is skipped and `tracks[0]` is used unchecked;
otherwise the re-draw loop runs. -/
def autoplay_select (tracks : List AutoTrack) (draws : Nat → Nat) :
    Except Nat (AutoTrack × Nat) :=
  if tracks.length ≤ 1 then .ok (tracks.getD 0 default, 0)
  else autoplay_go tracks draws tracks.length 0

/-- A track of `spotify_enqueue` that resolves: its Stage-B lookup
produces a truthy URL and its `fetch_track` call returns normally with
a nonempty track list. -/
def EnqFetch.nonEmptyOk : EnqFetch → Bool
  | .ok (_ :: _) => true
  | _ => false

/-- Goodness of one `spotify_enqueue` input track (no connection
failure, a truthy Stage-B URL, a nonempty fetched track list). -/
abbrev EnqTrack.resolves (yc : Bool) (now : Nat) (t : EnqTrack) : Prop :=
  pyStrTruthy (stage_b_youtube_lookup yc t.meta.track_info t.cacheFetch
    t.apiResult now).2 = true ∧ t.fetch.nonEmptyOk = true

/-- The flag/counter consistency invariant of the `spotify_enqueue`
accumulator: `has_not_allowed` is set iff some track was rejected. -/
def EnqAcc.flagConsistent (acc : EnqAcc) : Prop :=
  (acc.hasNotAllowed = true) ↔ 0 < acc.rejected

/-!
## Concrete instances used by closed theorems
-/

/-- A pending set holding one staged Spotify insert tuple. -/
def c1TaskSet : TaskSet :=
  ⟨[], [pyT [.str "spotify", pyL [pyD [("id", .str "id1")]]]], []⟩

/-- A queue state with `c1TaskSet` pending for message id 2. -/
def c1StateTwo : QState := [(2, c1TaskSet)]

/-- A queue state with `c1TaskSet` pending for message id 1. -/
def c1StateOne : QState := [(1, c1TaskSet)]

/-- A fixed Spotify track-info 7-tuple. -/
def cMeta : SpotifyTrackInfo :=
  ⟨"su", "ti", "spotify:track:id1", "an", "tn", "id1", "track"⟩

/-- An enqueue input track that resolves to one playable track. -/
def cGoodTrack : EnqTrack :=
  ⟨cMeta, .ok Option.none, some "url", .ok [PyVal.str "trk"], true, true⟩

/-- An enqueue input track whose playable-track fetch returns an empty
track list. -/
def cEmptyTrack : EnqTrack :=
  ⟨cMeta, .ok Option.none, some "url", .ok [], true, true⟩

/-- An enqueue input track resolving to one playable track that the
content filter rejects. -/
def cRejectedTrack : EnqTrack :=
  ⟨cMeta, .ok Option.none, some "url", .ok [PyVal.str "trk"], false, true⟩

/-- 11 consecutive empty playable-track results followed by a good
track, with enqueuing on. -/
def c4Env : EnqEnv :=
  ⟨List.replicate 11 cEmptyTrack ++ [cGoodTrack], false, false, true, 0, 0,
    false, 7⟩

/-- A batch of one track that the content filter rejects. -/
def c7Env : EnqEnv := ⟨[cRejectedTrack], false, false, false, 0, 0, false, 7⟩

/-- A batch of two resolving tracks. -/
def c9Env2 : EnqEnv := ⟨[cGoodTrack, cGoodTrack], false, false, false, 0, 0, false, 7⟩

/-- A batch of three resolving tracks. -/
def c9Env3 : EnqEnv :=
  ⟨[cGoodTrack, cGoodTrack, cGoodTrack], false, false, false, 0, 0, false, 7⟩

/-- One first-time-query input track (not invalid, cache miss, URL
found). -/
def c9SfT : SftqTrack := ⟨false, cMeta, .ok Option.none, some "url"⟩

/-- A first-time query over three such tracks. -/
def c9Sftq : SftqEnv := ⟨[c9SfT, c9SfT, c9SfT], false, false, false, 7⟩

/-- A cached Lavalink payload that decodes to an errored result. -/
def c5CachedErr : PyVal := pyD [("loadType", .str "LOAD_FAILED"), ("tracks", pyL [])]

/-- A fresh non-errored provider response with one track. -/
def c5Fresh : PyVal :=
  pyD [("loadType", .str "TRACK_LOADED"), ("playlistInfo", pyD []),
    ("tracks", pyL [pyD [("isSeekable", .bool true), ("isStream", .bool false)]])]

/-- Environment whose cache read hits `c5CachedErr` and whose provider
returns `c5Fresh`. -/
def c5Env : FetchEnv := ⟨true, false, "q5", .ok (some c5CachedErr), .ok (some c5Fresh), 9⟩

/-- A provider response whose serialized text contains all four shape
key strings although `isSeekable` and `isStream` occur only nested
inside a track object, not as top-level keys. -/
def c6Raw : PyVal :=
  pyD [("loadType", .str "TRACK_LOADED"), ("playlistInfo", pyD []),
    ("tracks", pyL [pyD [("info",
      pyD [("isSeekable", .bool true), ("isStream", .bool false)])]])]

/-- Environment with a cache miss whose provider returns `c6Raw`. -/
def c6Env : FetchEnv := ⟨true, false, "q6", .ok Option.none, .ok (some c6Raw), 7⟩

/-- An autoplay candidate failing query normalization (and the other
checks). -/
def c8Bad : AutoTrack := ⟨false, false, false, false⟩

/-- A valid autoplay candidate. -/
def c8Good : AutoTrack := ⟨true, false, false, true⟩

/-- A pool of 5 candidates, all invalid. -/
def c8AllInvalid : List AutoTrack := [c8Bad, c8Bad, c8Bad, c8Bad, c8Bad]

/-- A pool of 5 candidates with one valid candidate at index 2. -/
def c8OneValid : List AutoTrack := [c8Bad, c8Bad, c8Good, c8Bad, c8Bad]

/-!
## Theorems
-/

theorem callRouteTasks_fst (fail fail' : WriteOp → Bool) (args : List PyVal) :
    (callRouteTasks fail args).map Prod.fst =
      (callRouteTasks fail' args).map Prod.fst := by
  rcases args with _ | ⟨a, _ | ⟨b, _ | ⟨c, _ | ⟨d, rest⟩⟩⟩⟩ <;> rfl

theorem gatherWrites_indep (fail fail' : WriteOp → Bool) (ts : TaskSet) :
    gatherWrites fail ts = gatherWrites fail' ts := by
  obtain ⟨u, i, g⟩ := ts
  rcases u with _ | ⟨a, _ | ⟨b, _ | ⟨c, _ | ⟨d, u⟩⟩⟩⟩ <;>
    rcases i with _ | ⟨a2, _ | ⟨b2, _ | ⟨c2, _ | ⟨d2, i⟩⟩⟩⟩ <;>
    rcases g with _ | ⟨a3, _ | ⟨b3, _ | ⟨c3, _ | ⟨d3, g⟩⟩⟩⟩ <;> rfl

theorem run_tasks_locked_indep (fail : WriteOp → Bool) (st : QState)
    (lock_id : Nat) (ctx? : Option Nat) :
    run_tasks_locked fail st lock_id ctx? =
      run_tasks_locked (fun _ => false) st lock_id ctx? := by
  unfold run_tasks_locked
  simp only [gatherWrites_indep fail (fun _ => false)]

theorem run_tasks_indep (fail : WriteOp → Bool) (st : QState)
    (c m : Option Nat) :
    run_tasks fail st c m = run_tasks (fun _ => false) st c m := by
  rcases m with _ | m <;> rcases c with _ | c <;>
    simp only [run_tasks, run_tasks_locked_indep fail]

theorem run_all_indep (fail : WriteOp → Bool) (st : QState) :
    run_all_pending_tasks fail st = run_all_pending_tasks (fun _ => false) st := by
  rcases st with _ | ⟨p1, _ | ⟨p2, _ | ⟨p3, _ | ⟨p4, rest⟩⟩⟩⟩ <;> rfl

theorem run_tasks_isSome (fail : WriteOp → Bool) (st : QState)
    (c m : Option Nat) :
    (run_tasks fail st c m).isSome = (c.isSome || m.isSome) := by
  rcases m with _ | m <;> rcases c with _ | c <;> simp [run_tasks]

/-- Claim C2: for every flush (`run_tasks` or `run_all_pending_tasks`)
and every assignment of outcomes to the staged storage operations, the
whole observable outcome of the flush (new queue state and executed
operations) is independent of which operations fail — so one
operation's or category's failure neither prevents the others from
being executed nor propagates — and `run_tasks` returns (rather than
raising) exactly when at least one of the context / explicit message id
is supplied, independently of the failure outcomes; `run_all_pending_tasks`
always returns. -/
theorem flush_isolates_write_failures :
    ∀ (fail : WriteOp → Bool) (st : QState) (c m : Option Nat),
      run_tasks fail st c m = run_tasks (fun _ => false) st c m ∧
      (run_tasks fail st c m).isSome = (c.isSome || m.isSome) ∧
      run_all_pending_tasks fail st = run_all_pending_tasks (fun _ => false) st :=
  fun fail st c m =>
    ⟨run_tasks_indep fail st c m, run_tasks_isSome fail st c m,
      run_all_indep fail st⟩

/-- Claim C1 (code bug witnessed at concrete inputs): with one insert
staged for request id 2, a flush addressed by the explicit
`message_id=2` argument under a context whose message id is 1 passes
the `lock_id in self._tasks` gate but reads and deletes
`self._tasks[ctx.message.id]`, so the swallowed `KeyError` leaves the
queue state unchanged — id 2's pending set is neither executed nor
removed; and even a flush addressed by the context's own message id
removes the pending set while dispatching zero storage operations,
because `route_tasks(*tasks[a])` passes each staged `(table, payload)`
tuple positionally, leaving `data = None`. -/
theorem run_tasks_wrong_key_and_executes_nothing :
    run_tasks (fun _ => false) c1StateTwo (some 1) (some 2) =
      some (c1StateTwo, []) ∧
    run_tasks (fun _ => false) c1StateOne (some 1) Option.none =
      some ([], []) ∧
    c1TaskSet.insert.length = 1 :=
  ⟨rfl, rfl, rfl⟩

/-- Claim C3: every cache read of the resolution pipeline is wrapped in
a `try/except` that treats a raising `fetch_one` exactly as a cache
miss: `spotify_query`, `youtube_query`, `fetch_track` and the Stage-B
lookup inside the `spotify_enqueue` loop behave identically under a
raising storage backend and under a miss; moreover `youtube_query`
then proceeds to the external first-time query, and `fetch_track` then
behaves exactly as a forced (cache-bypassing) call, so a storage fault
never blocks resolution. -/
theorem storage_fault_reads_fail_open :
    (∀ env : SpQEnv,
      spotify_query { env with cacheFetch := .error () } =
        spotify_query { env with cacheFetch := .ok Option.none }) ∧
    (∀ env : YTEnv,
      youtube_query { env with cacheFetch := .error () } =
        youtube_query { env with cacheFetch := .ok Option.none }) ∧
    (∀ env : YTEnv,
      youtube_query { env with cacheFetch := .error () } =
        youtube_first_time_query env.cache_enabled env.track_info
          env.apiResult env.now) ∧
    (∀ (env : FetchEnv) (forced lazy : Bool),
      fetch_track { env with cacheFetch := .error () } forced lazy =
        fetch_track { env with cacheFetch := .ok Option.none } forced lazy) ∧
    (∀ (env : FetchEnv) (lazy : Bool),
      fetch_track { env with cacheFetch := .error () } false lazy =
        fetch_track { env with cacheFetch := .error () } true lazy) ∧
    (∀ (env : EnqEnv) (total i : Nat) (t : EnqTrack) (acc : EnqAcc),
      enq_step env total i { t with cacheFetch := .error () } acc =
        enq_step env total i { t with cacheFetch := .ok Option.none } acc) := by
  refine ⟨fun _ => rfl, fun _ => rfl, ?_, fun _ _ _ => rfl, ?_, fun _ _ _ _ _ => rfl⟩
  · intro env
    obtain ⟨ce, ti, cf, ar, n⟩ := env
    cases ce <;> rfl
  · intro env lazy
    obtain ⟨ce, il, q, cf, lo, n⟩ := env
    cases ce <;> cases il <;> rfl

/-- Claim C10: `fetch_track` never returns `None` in place of a
`LoadResult`: with `lazy=true` the external provider is not consulted
and the default `LOAD_FAILED` result with an empty track list is
returned with `called_api = false` (for every environment, cached or
not); on a cache miss, a provider call that raises `KeyError` or that
returns no result likewise yields the default `LOAD_FAILED` result
with `called_api = true`; and every call either returns a `LoadResult`
pair or raises `TrackEnqueueError` — never an unhandled condition. -/
theorem fetch_track_default_load_failed :
    (∀ (env : FetchEnv) (forced : Bool),
      (fetch_track env forced true).2 =
        .ok (LoadResult.ofDict loadFailedDict, false)) ∧
    (∀ (ce il : Bool) (q : String) (n : Nat),
      (fetch_track ⟨ce, il, q, .ok Option.none, .keyError, n⟩ false false).2 =
        .ok (LoadResult.ofDict loadFailedDict, true)) ∧
    (∀ (ce il : Bool) (q : String) (n : Nat),
      (fetch_track ⟨ce, il, q, .ok Option.none, .ok Option.none, n⟩ false false).2 =
        .ok (LoadResult.ofDict loadFailedDict, true)) ∧
    (∀ (env : FetchEnv) (forced lazy : Bool),
      (fetch_track env forced lazy).2 = .error .trackEnqueue ∨
        ∃ r a, (fetch_track env forced lazy).2 = .ok (r, a)) := by
  refine ⟨fun env forced => rfl, ?_, ?_, ?_⟩
  · intro ce il q n; cases ce <;> cases il <;> rfl
  · intro ce il q n; cases ce <;> cases il <;> rfl
  · intro env forced lazy
    rcases h : (fetch_track env forced lazy).2 with e | ⟨r, a⟩
    · cases e; exact Or.inl rfl
    · exact Or.inr ⟨r, a, rfl⟩

theorem fetch_track_body_forced_ignores_rec
    (r r' : List Staged × Except FetchErr (LoadResult × Bool))
    (env : FetchEnv) (lazy : Bool) :
    fetch_track_body r env true lazy = fetch_track_body r' env true lazy := by
  obtain ⟨ce, il, q, cf, lo, n⟩ := env
  cases ce <;> rfl

theorem fetch_track_body_errored_hit
    (rec : List Staged × Except FetchErr (LoadResult × Bool))
    (q : String) (lo : LoadOutcome) (n : Nat) (d : PyDict)
    (hnil : d.isNil = false)
    (herr : (LoadResult.ofDict (v2compatFix
      (dictSet (.dict d) "query" (.str q)))).has_error = true) :
    (fetch_track_body rec ⟨true, false, q, .ok (some (.dict d)), lo, n⟩
      false false).2 = rec.2 := by
  obtain ⟨rs, res⟩ := rec
  cases res with
  | ok p =>
    obtain ⟨r2, a2⟩ := p
    simp only [fetch_track_body]
    simp [pyTruthy, isDict, hnil, herr, fetch_track_finish]
  | error e =>
    simp only [fetch_track_body]
    simp [pyTruthy, isDict, hnil, herr, fetch_track_finish]

/-- Claim C5: a non-forced, non-local `fetch_track` call with the
Lavalink scope enabled whose cache read returns a (truthy dict)
payload decoding — after the `query` injection and the `V2_COMPACT`
fix-up — to a `LoadResult` that reports an error, returns exactly the
outcome of a fresh `forced=true` call: the stale cached errored value
is not served. -/
theorem errored_cache_hit_forces_fresh_fetch :
    ∀ (env : FetchEnv) (d : PyDict),
      env.cache_enabled = true → env.is_local = false →
      env.cacheFetch = .ok (some (.dict d)) → d.isNil = false →
      (LoadResult.ofDict (v2compatFix
        (dictSet (.dict d) "query" (.str env.query)))).has_error = true →
      (fetch_track env false false).2 = (fetch_track env true false).2 := by
  intro env d hce hil hcf hnil herr
  obtain ⟨ce, il, q, cf, lo, n⟩ := env
  replace hce : ce = true := hce
  replace hil : il = false := hil
  replace hcf : cf = .ok (some (.dict d)) := hcf
  replace herr : (LoadResult.ofDict (v2compatFix
    (dictSet (.dict d) "query" (.str q)))).has_error = true := herr
  subst hce hil hcf
  unfold fetch_track
  rw [fetch_track_body_forced_ignores_rec
    (fetch_track_body ([], .error .trackEnqueue)
      ⟨true, false, q, .ok (some (.dict d)), lo, n⟩ true false)
    ([], .error .trackEnqueue)
    ⟨true, false, q, .ok (some (.dict d)), lo, n⟩ false]
  exact fetch_track_body_errored_hit _ q lo n d hnil herr

/-- Witness for C5 at a concrete environment: the cache hit decodes to
an errored result and the returned outcome equals the forced fresh
fetch's outcome. -/
theorem errored_cache_hit_forces_fresh_fetch_witness :
    (fetch_track c5Env false false).2 = (fetch_track c5Env true false).2 :=
  errored_cache_hit_forces_fresh_fetch c5Env
    (PyDict.ofPairs [("loadType", .str "LOAD_FAILED"), ("tracks", pyL [])])
    rfl rfl rfl rfl (by decide)

theorem list_isEmpty_false_iff {α : Type} (l : List α) : l.isEmpty = false ↔ l ≠ [] := by
  cases l <;> simp

theorem fetch_track_finish_stages_iff (env : FetchEnv)
    (hce : env.cache_enabled = true) (hil : env.is_local = false)
    (staged2 : List Staged) (res? : Option LoadResult) (ca : Bool)
    (err? : Option FetchErr)
    (hto : err? = Option.none → staged2.any Staged.isLavalinkInsert = true →
      stagesLavalinkInsert (res?.getD (LoadResult.ofDict loadFailedDict))) :
    ∀ r a, (fetch_track_finish env staged2 res? ca err?).2 = .ok (r, a) →
      ((fetch_track_finish env staged2 res? ca err?).1.any
          Staged.isLavalinkInsert = true ↔ stagesLavalinkInsert r) := by
  intro r a h
  cases err? with
  | some e => simp [fetch_track_finish] at h
  | none =>
    replace hto := hto rfl
    cases res? with
    | none =>
      replace h : Except.ok (LoadResult.ofDict loadFailedDict, ca) =
          (Except.ok (r, a) : Except FetchErr (LoadResult × Bool)) := h
      injection h with h1
      injection h1 with hr hca
      subst hr
      have hfst : (fetch_track_finish env staged2 Option.none ca Option.none).1 = staged2 := by
        simp only [fetch_track_finish]
        rw [if_neg]
        intro hC
        exact absurd hC.2.2.1 (by decide)
      rw [hfst]
      exact ⟨fun hx => hto hx, fun hC => absurd hC.2.1 (by decide)⟩
    | some r0 =>
      replace h : Except.ok (r0, ca) =
          (Except.ok (r, a) : Except FetchErr (LoadResult × Bool)) := h
      injection h with h1
      injection h1 with hr hca
      subst hr
      have hfst : (fetch_track_finish env staged2 (some r0) ca Option.none).1 =
          (if env.cache_enabled = true ∧ r0.load_type ≠ "" ∧
              r0.has_error = false ∧ env.is_local = false ∧
              r0.tracks.isEmpty = false then
            if hasAllShapeSubstrings (jsonDumps r0.raw) then
              staged2 ++ [lavalinkInsertTask env.query (jsonDumps r0.raw) env.now]
            else staged2
          else staged2) := rfl
      rw [hfst]
      by_cases h1 : (env.cache_enabled = true ∧ r0.load_type ≠ "" ∧
          r0.has_error = false ∧ env.is_local = false ∧
          r0.tracks.isEmpty = false)
      · rw [if_pos h1]
        by_cases h2 : hasAllShapeSubstrings (jsonDumps r0.raw) = true
        · rw [if_pos h2]
          constructor
          · intro _
            exact ⟨h1.2.1, h1.2.2.1, (list_isEmpty_false_iff _).mp h1.2.2.2.2, h2⟩
          · intro _
            simp [List.any_append, lavalinkInsertTask, Staged.isLavalinkInsert]
        · rw [if_neg h2]
          exact ⟨fun hx => hto hx, fun hC => absurd hC.2.2.2 h2⟩
      · rw [if_neg h1]
        refine ⟨fun hx => hto hx, fun hC => absurd ?_ h1⟩
        exact ⟨hce, hC.1, hC.2.1, hil, (list_isEmpty_false_iff _).mpr hC.2.2.1⟩

theorem fetch_track_body_stages_iff
    (rs : List Staged) (rres : Except FetchErr (LoadResult × Bool))
    (q : String) (cf : Except Unit (Option PyVal)) (lo : LoadOutcome) (n : Nat)
    (forced lazy : Bool)
    (hrec : ∀ r a, rres = .ok (r, a) →
      (rs.any Staged.isLavalinkInsert = true ↔ stagesLavalinkInsert r)) :
    ∀ r a,
      (fetch_track_body (rs, rres) ⟨true, false, q, cf, lo, n⟩ forced lazy).2 =
        .ok (r, a) →
      ((fetch_track_body (rs, rres) ⟨true, false, q, cf, lo, n⟩ forced lazy).1.any
          Staged.isLavalinkInsert = true ↔ stagesLavalinkInsert r) := by
  have hvac : ∀ (x : Option LoadResult),
      (Option.none : Option FetchErr) = Option.none →
      ([] : List Staged).any Staged.isLavalinkInsert = true →
      stagesLavalinkInsert (x.getD (LoadResult.ofDict loadFailedDict)) :=
    fun _ _ hx => absurd hx (by simp)
  cases forced with
  | true =>
    cases lazy with
    | true => exact fetch_track_finish_stages_iff _ rfl rfl _ _ _ _ (hvac _)
    | false =>
      cases lo with
      | ok ro =>
        cases ro with
        | none => exact fetch_track_finish_stages_iff _ rfl rfl _ _ _ _ (hvac _)
        | some raw => exact fetch_track_finish_stages_iff _ rfl rfl _ _ _ _ (hvac _)
      | keyError => exact fetch_track_finish_stages_iff _ rfl rfl _ _ _ _ (hvac _)
      | runtimeError =>
        intro r a h
        exact absurd h (by simp [fetch_track_body, fetch_track_finish])
  | false =>
    cases cf with
    | error e =>
      cases lazy with
      | true => exact fetch_track_finish_stages_iff _ rfl rfl _ _ _ _ (hvac _)
      | false =>
        cases lo with
        | ok ro =>
          cases ro with
          | none => exact fetch_track_finish_stages_iff _ rfl rfl _ _ _ _ (hvac _)
          | some raw => exact fetch_track_finish_stages_iff _ rfl rfl _ _ _ _ (hvac _)
        | keyError => exact fetch_track_finish_stages_iff _ rfl rfl _ _ _ _ (hvac _)
        | runtimeError =>
          intro r a h
          exact absurd h (by simp [fetch_track_body, fetch_track_finish])
    | ok vo =>
      cases vo with
      | none =>
        cases lazy with
        | true => exact fetch_track_finish_stages_iff _ rfl rfl _ _ _ _ (hvac _)
        | false =>
          cases lo with
          | ok ro =>
            cases ro with
            | none => exact fetch_track_finish_stages_iff _ rfl rfl _ _ _ _ (hvac _)
            | some raw => exact fetch_track_finish_stages_iff _ rfl rfl _ _ _ _ (hvac _)
          | keyError => exact fetch_track_finish_stages_iff _ rfl rfl _ _ _ _ (hvac _)
          | runtimeError =>
            intro r a h
            exact absurd h (by simp [fetch_track_body, fetch_track_finish])
      | some v =>
        simp only [fetch_track_body, Bool.not_false, Bool.true_and,
          Bool.and_self, reduceIte]
        generalize hb : (pyTruthy v && isDict v) = b
        have hupd : ∀ (b' : Bool),
            ((if b' then [lavalinkUpdateTask q] else []).any
              Staged.isLavalinkInsert) = false := by
          intro b'
          cases b' <;> simp [lavalinkUpdateTask, Staged.isLavalinkInsert]
        cases b with
        | false =>
          cases lazy with
          | true => exact fetch_track_finish_stages_iff _ rfl rfl _ _ _ _ (hvac _)
          | false =>
            cases lo with
            | ok ro =>
              cases ro with
              | none => exact fetch_track_finish_stages_iff _ rfl rfl _ _ _ _ (hvac _)
              | some raw => exact fetch_track_finish_stages_iff _ rfl rfl _ _ _ _ (hvac _)
            | keyError => exact fetch_track_finish_stages_iff _ rfl rfl _ _ _ _ (hvac _)
            | runtimeError =>
              intro r a h
              exact absurd h (by simp [fetch_track_finish])
        | true =>
          simp only [reduceIte]
          cases lazy with
          | true =>
            refine fetch_track_finish_stages_iff _ rfl rfl _ _ _ _ ?_
            intro _ hx
            exact absurd hx (by simp [lavalinkUpdateTask, Staged.isLavalinkInsert])
          | false =>
            by_cases hE : (LoadResult.ofDict (v2compatFix
                (dictSet v "query" (.str q)))).has_error = true
            · rw [if_pos hE]
              cases rres with
              | ok p =>
                obtain ⟨r2, a2⟩ := p
                refine fetch_track_finish_stages_iff _ rfl rfl _ _ _ _ ?_
                intro _ hx
                have hx2 : rs.any Staged.isLavalinkInsert = true := by
                  simpa [List.any_cons, lavalinkUpdateTask,
                    Staged.isLavalinkInsert] using hx
                exact (hrec r2 a2 rfl).mp hx2
              | error e =>
                intro r a h
                exact absurd h (by simp [fetch_track_finish])
            · rw [if_neg hE]
              refine fetch_track_finish_stages_iff _ rfl rfl _ _ _ _ ?_
              intro _ hx
              exact absurd hx (by simp [lavalinkUpdateTask, Staged.isLavalinkInsert])

/-- Claim C6 (amended): for every `fetch_track` call with the Lavalink
scope enabled and a non-local query that returns a result, a Lavalink
cache insert is staged if and only if the returned result has a truthy
status tag, a clear error flag, a nonempty track list, and a serialized
payload CONTAINING the four shape key strings `loadType`,
`playlistInfo`, `isSeekable`, `isStream` as substrings of the JSON
text — not necessarily as top-level keys of the response shape. -/
theorem lavalink_insert_staging_iff :
    ∀ (env : FetchEnv) (forced lazy : Bool) (r : LoadResult) (a : Bool),
      env.cache_enabled = true → env.is_local = false →
      (fetch_track env forced lazy).2 = .ok (r, a) →
      ((fetch_track env forced lazy).1.any Staged.isLavalinkInsert = true ↔
        stagesLavalinkInsert r) := by
  intro env forced lazy r a hce hil h
  obtain ⟨ce, il, q, cf, lo, n⟩ := env
  replace hce : ce = true := hce
  replace hil : il = false := hil
  subst hce hil
  have hD : ∀ (r : LoadResult) (a : Bool),
      (Except.error FetchErr.trackEnqueue : Except FetchErr (LoadResult × Bool)) =
        .ok (r, a) →
      (([] : List Staged).any Staged.isLavalinkInsert = true ↔
        stagesLavalinkInsert r) := fun _ _ hx => nomatch hx
  exact fetch_track_body_stages_iff _ _ q cf lo n forced lazy
    (fetch_track_body_stages_iff [] (.error .trackEnqueue) q cf lo n true false hD)
    r a h

/-- Witness for the amended C6 at a concrete environment: the staging
condition holds for the returned result, so the insert is staged. -/
theorem lavalink_insert_staging_iff_witness :
    (fetch_track c6Env false false).1.any Staged.isLavalinkInsert = true :=
  (lavalink_insert_staging_iff c6Env false false (LoadResult.ofDict c6Raw) true
      rfl rfl rfl).mpr
    ⟨by decide, by decide, by decide, by decide⟩

/-- Counterexample to C6 as stated: at this concrete call the returned
result's raw response does NOT contain all four required shape keys as
top-level keys (`isSeekable` and `isStream` occur only nested inside a
track object), yet the serialized text contains them as substrings and
the cache insert IS staged — so "staged if and only if the four keys
are top-level keys of the response shape" is false. -/
theorem shape_check_not_top_level_keys :
    (fetch_track c6Env false false).1.any Staged.isLavalinkInsert = true ∧
    hasRequiredTopLevelKeys c6Raw = false ∧
    (fetch_track c6Env false false).2 = .ok (LoadResult.ofDict c6Raw, true) :=
  ⟨by decide, by decide, rfl⟩


theorem enq_step_aborts_after_ten (env : EnqEnv) (total i : Nat) (t : EnqTrack)
    (acc : EnqAcc) (tl : List PyVal) (hf : t.fetch = .ok tl)
    (h10 : acc.fails ≥ 10) :
    ∃ a', enq_step env total i t acc = .brk a' ∧
      a'.notices = acc.notices ++ [.tooManyFails] ∧
      a'.trackList = acc.trackList ∧ a'.enqueued = acc.enqueued := by
  simp only [enq_step]
  rcases hsb : stage_b_youtube_lookup env.youtube_cache t.meta.track_info
    t.cacheFetch t.apiResult env.now with ⟨stgB, val⟩
  dsimp only
  have hrest : ∀ (acc2 : EnqAcc) (tl2 : List PyVal), acc2.fails ≥ 10 →
      ∃ a', enq_step_rest env total i t acc2 tl2 = .brk a' ∧
        a'.notices = acc2.notices ++ [.tooManyFails] ∧
        a'.trackList = acc2.trackList ∧ a'.enqueued = acc2.enqueued := by
    intro acc2 tl2 h2
    dsimp only [enq_step_rest]
    by_cases hn : (i % 2 = 0 ∨ i = total)
    · rw [if_pos hn, if_pos h2]
      exact ⟨_, rfl, rfl, rfl, rfl⟩
    · rw [if_neg hn, if_pos h2]
      exact ⟨_, rfl, rfl, rfl, rfl⟩
  by_cases hv : pyStrTruthy val = true
  · rw [if_pos hv, hf]
    exact hrest _ tl h10
  · rw [if_neg hv]
    exact hrest _ [] h10

theorem enq_step_resolved (env : EnqEnv) (total i : Nat) (t : EnqTrack)
    (acc : EnqAcc) (hres : t.resolves env.youtube_cache env.now)
    (h10 : acc.fails < 10) :
    ∃ a', enq_step env total i t acc = .cont a' ∧ a'.fails = 0 ∧
      a'.notifies = acc.notifies ++
        (if i % 2 = 0 ∨ i = total then [(i, total)] else []) := by
  obtain ⟨hv, hok⟩ := hres
  have hsh : ∃ x xs, t.fetch = .ok (x :: xs) := by
    rcases hf2 : t.fetch with tl | _ | _ | _
    · rcases tl with _ | ⟨x, xs⟩
      · rw [hf2] at hok; exact absurd hok (by simp [EnqFetch.nonEmptyOk])
      · exact ⟨x, xs, rfl⟩
    · rw [hf2] at hok; exact absurd hok (by simp [EnqFetch.nonEmptyOk])
    · rw [hf2] at hok; exact absurd hok (by simp [EnqFetch.nonEmptyOk])
    · rw [hf2] at hok; exact absurd hok (by simp [EnqFetch.nonEmptyOk])
  obtain ⟨x, xs, hf⟩ := hsh
  simp only [enq_step]
  rcases hsb : stage_b_youtube_lookup env.youtube_cache t.meta.track_info
    t.cacheFetch t.apiResult env.now with ⟨stgB, val⟩
  rw [hsb] at hv
  dsimp only at hv ⊢
  rw [if_pos hv, hf]
  dsimp only [enq_step_rest]
  by_cases hn : (i % 2 = 0 ∨ i = total)
  · rw [if_pos hn, if_neg (show ¬ (acc.fails ≥ 10) by omega)]
    repeat' split
    all_goals exact ⟨_, rfl, by simp [enqueueTrack], by simp [enqueueTrack]⟩
  · rw [if_neg hn, if_neg (show ¬ (acc.fails ≥ 10) by omega)]
    repeat' split
    all_goals exact ⟨_, rfl, by simp [enqueueTrack], by simp [enqueueTrack]⟩

theorem enq_step_rejection (env : EnqEnv) (total i : Nat) (t : EnqTrack)
    (acc : EnqAcc) (hres : t.resolves env.youtube_cache env.now)
    (h10 : acc.fails < 10) (hall : t.allowed = false) :
    ∃ a', enq_step env total i t acc = .cont a' ∧ a'.hasNotAllowed = true ∧
      a'.trackList = acc.trackList ∧ a'.enqueued = acc.enqueued := by
  obtain ⟨hv, hok⟩ := hres
  have hsh : ∃ x xs, t.fetch = .ok (x :: xs) := by
    rcases hf2 : t.fetch with tl | _ | _ | _
    · rcases tl with _ | ⟨x, xs⟩
      · rw [hf2] at hok; exact absurd hok (by simp [EnqFetch.nonEmptyOk])
      · exact ⟨x, xs, rfl⟩
    · rw [hf2] at hok; exact absurd hok (by simp [EnqFetch.nonEmptyOk])
    · rw [hf2] at hok; exact absurd hok (by simp [EnqFetch.nonEmptyOk])
    · rw [hf2] at hok; exact absurd hok (by simp [EnqFetch.nonEmptyOk])
  obtain ⟨x, xs, hf⟩ := hsh
  simp only [enq_step]
  rcases hsb : stage_b_youtube_lookup env.youtube_cache t.meta.track_info
    t.cacheFetch t.apiResult env.now with ⟨stgB, val⟩
  rw [hsb] at hv
  dsimp only at hv ⊢
  rw [if_pos hv, hf]
  dsimp only [enq_step_rest]
  by_cases hn : (i % 2 = 0 ∨ i = total)
  · rw [if_pos hn, if_neg (show ¬ (acc.fails ≥ 10) by omega), if_pos hall]
    exact ⟨_, rfl, rfl, rfl, rfl⟩
  · rw [if_neg hn, if_neg (show ¬ (acc.fails ≥ 10) by omega), if_pos hall]
    exact ⟨_, rfl, rfl, rfl, rfl⟩

theorem enq_step_rest_flag (env : EnqEnv) (total i : Nat) (t : EnqTrack)
    (acc : EnqAcc) (tl : List PyVal) (h : acc.flagConsistent) :
    (enq_step_rest env total i t acc tl).acc.flagConsistent := by
  dsimp only [enq_step_rest]
  repeat' split
  all_goals
    simp_all [EnqAcc.flagConsistent, StepRes.acc, enqueueTrack]

theorem enq_step_flag (env : EnqEnv) (total i : Nat) (t : EnqTrack)
    (acc : EnqAcc) (h : acc.flagConsistent) :
    (enq_step env total i t acc).acc.flagConsistent := by
  simp only [enq_step]
  rcases hsb : stage_b_youtube_lookup env.youtube_cache t.meta.track_info
    t.cacheFetch t.apiResult env.now with ⟨stgB, val⟩
  dsimp only
  by_cases hv : pyStrTruthy val = true
  · rw [if_pos hv]
    rcases t.fetch with tl | _ | _ | _
    · exact enq_step_rest_flag env total i t _ tl h
    · exact h
    · exact h
    · exact h
  · rw [if_neg hv]
    exact enq_step_rest_flag env total i t _ [] h

theorem enq_loop_flag (env : EnqEnv) (total : Nat) :
    ∀ (ts : List EnqTrack) (i : Nat) (acc : EnqAcc),
      acc.flagConsistent → (enq_loop env total ts i acc).1.flagConsistent := by
  intro ts
  induction ts with
  | nil => intro i acc h; exact h
  | cons t rest ih =>
    intro i acc h
    dsimp only [enq_loop]
    have hstep := enq_step_flag env total i t acc h
    rcases hs : enq_step env total i t acc with a' | a' | a' <;>
      rw [hs] at hstep <;> dsimp only [StepRes.acc] at hstep
    · exact ih (i + 1) a' hstep
    · exact hstep
    · exact hstep

theorem spotify_enqueue_nothing_found_iff (env : EnqEnv)
    (hne : env.tracks ≠ [])
    (hok : (spotify_enqueue env).2 ≠ .error .trackEnqueue) :
    ((spotify_enqueue env).2 = .error .nothingFound ↔
      ((spotify_enqueue env).1.trackList = [] ∧
        (spotify_enqueue env).1.rejected = 0)) := by
  have hlen : ¬ (env.tracks.length < 1) := by
    have := List.length_pos.mpr hne
    omega
  have hflag := enq_loop_flag env env.tracks.length env.tracks 0 (enqAcc0 env)
    (by simp [EnqAcc.flagConsistent, enqAcc0])
  unfold spotify_enqueue
  rw [if_neg hlen]
  unfold spotify_enqueue at hok
  rw [if_neg hlen] at hok
  rcases hloop : enq_loop env env.tracks.length env.tracks 0 (enqAcc0 env)
    with ⟨acc, ex⟩
  rw [hloop] at hflag hok
  dsimp only at hflag
  cases ex
  case raisedEnq => exact absurd rfl hok
  all_goals {
    dsimp only
    by_cases hc : (acc.trackList.isEmpty && !acc.hasNotAllowed) = true
    · rw [if_pos hc]
      dsimp only
      simp only [List.isEmpty_iff, Bool.and_eq_true, Bool.not_eq_true'] at hc
      constructor
      · intro _
        refine ⟨hc.1, ?_⟩
        by_contra hr
        have hh : acc.hasNotAllowed = true := hflag.mpr (by omega)
        rw [hh] at hc
        exact absurd hc.2 (by simp)
      · intro _; rfl
    · rw [if_neg hc]
      simp only [Bool.and_eq_true, List.isEmpty_iff, Bool.not_eq_true'] at hc
      constructor
      · intro hx
        exfalso
        revert hx
        split <;> split <;> simp
      · rintro ⟨h1, h2⟩
        exfalso
        have h1' : acc.trackList = [] := by
          split at h1 <;> split at h1 <;> exact h1
        have hha : acc.hasNotAllowed = false := by
          rcases hh : acc.hasNotAllowed with _ | _
          · rfl
          · have := hflag.mp hh
            have h2' : acc.rejected = 0 := by
              split at h2 <;> split at h2 <;> exact h2
            omega
        exact hc ⟨h1', hha⟩ }

theorem enq_loop_resolved_notifies (env : EnqEnv) (total : Nat) :
    ∀ (ts : List EnqTrack) (i : Nat) (acc : EnqAcc),
      (∀ t ∈ ts, t.resolves env.youtube_cache env.now) → acc.fails = 0 →
      (enq_loop env total ts i acc).1.notifies =
        acc.notifies ++ ((List.range' i ts.length).filter
          (fun j => decide (j % 2 = 0 ∨ j = total))).map (fun j => (j, total)) := by
  intro ts
  induction ts with
  | nil => intro i acc _ _; simp [enq_loop]
  | cons t rest ih =>
    intro i acc hall h0
    obtain ⟨a', hstep, hf0, hnot⟩ := enq_step_resolved env total i t acc
      (hall t (by simp)) (by omega)
    dsimp only [enq_loop]
    rw [hstep]
    rw [ih (i + 1) a' (fun t' ht' => hall t' (by simp [ht'])) hf0]
    rw [hnot, List.length_cons, List.range'_succ, List.filter_cons]
    by_cases hd : (i % 2 = 0 ∨ i = total)
    · simp [hd]
    · simp [hd]

theorem enq_step_rest_notifies (env : EnqEnv) (total i : Nat) (t : EnqTrack)
    (acc2 : EnqAcc) (tl2 : List PyVal) :
    (enq_step_rest env total i t acc2 tl2).acc.notifies =
      acc2.notifies ++ (if i % 2 = 0 ∨ i = total then [(i, total)] else []) := by
  dsimp only [enq_step_rest]
  by_cases hn : (i % 2 = 0 ∨ i = total)
  · rw [if_pos hn]
    repeat' split
    all_goals simp [StepRes.acc, enqueueTrack]
  · rw [if_neg hn]
    repeat' split
    all_goals simp [StepRes.acc, enqueueTrack]

theorem enq_step_notifies (env : EnqEnv) (total i : Nat) (t : EnqTrack)
    (acc : EnqAcc) :
    (enq_step env total i t acc).acc.notifies = acc.notifies ∨
    (enq_step env total i t acc).acc.notifies = acc.notifies ++ [(i, total)] := by
  simp only [enq_step]
  rcases hsb : stage_b_youtube_lookup env.youtube_cache t.meta.track_info
    t.cacheFetch t.apiResult env.now with ⟨stgB, val⟩
  dsimp only
  by_cases hv : pyStrTruthy val = true
  · rw [if_pos hv]
    rcases t.fetch with tl | _ | _ | _
    · rw [enq_step_rest_notifies]
      by_cases hn : (i % 2 = 0 ∨ i = total)
      · right; rw [if_pos hn]
      · left; rw [if_neg hn]; simp
    · left; rfl
    · left; rfl
    · left; rfl
  · rw [if_neg hv]
    rw [enq_step_rest_notifies]
    by_cases hn : (i % 2 = 0 ∨ i = total)
    · right; rw [if_pos hn]
    · left; rw [if_neg hn]; simp

theorem enq_loop_notifies_mono (env : EnqEnv) (total : Nat) :
    ∀ (ts : List EnqTrack) (i : Nat) (acc : EnqAcc),
      ((acc.notifies.map Prod.fst).Pairwise (· ≤ ·)) →
      (∀ e ∈ acc.notifies, e.1 ≤ i) →
      ((((enq_loop env total ts i acc).1.notifies).map Prod.fst).Pairwise (· ≤ ·)) := by
  intro ts
  induction ts with
  | nil => intro i acc h1 _; exact h1
  | cons t rest ih =>
    intro i acc h1 h2
    dsimp only [enq_loop]
    have hcase := enq_step_notifies env total i t acc
    rcases hs : enq_step env total i t acc with a' | a' | a' <;> rw [hs] at hcase <;>
      dsimp only [StepRes.acc] at hcase <;> dsimp only
    · rcases hcase with hsame | happ
      · exact ih (i + 1) a' (by rw [hsame]; exact h1)
          (by rw [hsame]; intro e he; exact le_trans (h2 e he) (by omega))
      · refine ih (i + 1) a' ?_ ?_
        · rw [happ, List.map_append, List.pairwise_append]
          refine ⟨h1, by simp, ?_⟩
          intro x hx y hy
          simp only [List.map_cons, List.map_nil, List.mem_singleton] at hy
          subst hy
          rcases List.mem_map.mp hx with ⟨e, he, hfx⟩
          rw [← hfx]
          exact h2 e he
        · rw [happ]
          intro e he
          rcases List.mem_append.mp he with hL | hR
          · exact le_trans (h2 e hL) (by omega)
          · simp only [List.mem_singleton] at hR
            rw [hR]
            omega
    · rcases hcase with hsame | happ
      · rw [hsame]; exact h1
      · rw [happ, List.map_append, List.pairwise_append]
        refine ⟨h1, by simp, ?_⟩
        intro x hx y hy
        simp only [List.map_cons, List.map_nil, List.mem_singleton] at hy
        subst hy
        rcases List.mem_map.mp hx with ⟨e, he, hfx⟩
        rw [← hfx]
        exact h2 e he
    · rcases hcase with hsame | happ
      · rw [hsame]; exact h1
      · rw [happ, List.map_append, List.pairwise_append]
        refine ⟨h1, by simp, ?_⟩
        intro x hx y hy
        simp only [List.map_cons, List.map_nil, List.mem_singleton] at hy
        subst hy
        rcases List.mem_map.mp hx with ⟨e, he, hfx⟩
        rw [← hfx]
        exact h2 e he

theorem spotify_enqueue_notifies_mono (env : EnqEnv) :
    (((spotify_enqueue env).1.notifies).map Prod.fst).Pairwise (· ≤ ·) := by
  unfold spotify_enqueue
  by_cases hl : env.tracks.length < 1
  · rw [if_pos hl]; simp [enqAcc0]
  · rw [if_neg hl]
    have hm := enq_loop_notifies_mono env env.tracks.length env.tracks 0
      (enqAcc0 env) (by simp [enqAcc0]) (by simp [enqAcc0])
    rcases hloop : enq_loop env env.tracks.length env.tracks 0 (enqAcc0 env)
      with ⟨acc, ex⟩
    rw [hloop] at hm
    dsimp only at hm
    cases ex <;>
      first
        | exact hm
        | (dsimp only
           by_cases hc : (acc.trackList.isEmpty && !acc.hasNotAllowed) = true
           · rw [if_pos hc]; exact hm
           · rw [if_neg hc]
             dsimp only
             split <;> split <;> exact hm)

theorem sftq_step_valid (env : SftqEnv) (total : Nat) (t : SftqTrack)
    (acc : SftqAcc) (hi : t.invalid = false) :
    (sftq_step env total t acc).count = acc.count + 1 ∧
    (sftq_step env total t acc).notifies = acc.notifies ++
      (if (acc.count + 1) % 2 = 0 ∨ (acc.count + 1) = total
        then [(acc.count + 1, total)] else []) := by
  dsimp only [sftq_step]
  rw [if_neg (by simp [hi])]
  repeat' split
  all_goals constructor
  all_goals simp_all

theorem sftq_step_invalid (env : SftqEnv) (total : Nat) (t : SftqTrack)
    (acc : SftqAcc) (hi : t.invalid = true) :
    sftq_step env total t acc = acc := by
  dsimp only [sftq_step]
  rw [if_pos (by simp [hi])]

theorem sftq_loop_notifies (env : SftqEnv) (total : Nat) :
    ∀ (ts : List SftqTrack) (acc : SftqAcc),
      (∀ t ∈ ts, t.invalid = false) →
      (sftq_loop env total ts acc).notifies =
        acc.notifies ++ ((List.range' (acc.count + 1) ts.length).filter
          (fun c => decide (c % 2 = 0 ∨ c = total))).map (fun c => (c, total)) ∧
      (sftq_loop env total ts acc).count = acc.count + ts.length := by
  intro ts
  induction ts with
  | nil => intro acc _; simp [sftq_loop]
  | cons t rest ih =>
    intro acc hall
    obtain ⟨hcnt, hnot⟩ := sftq_step_valid env total t acc (hall t (by simp))
    dsimp only [sftq_loop]
    obtain ⟨ih1, ih2⟩ := ih (sftq_step env total t acc)
      (fun t' ht' => hall t' (by simp [ht']))
    constructor
    · rw [ih1, hcnt, hnot, List.length_cons, List.range'_succ, List.filter_cons]
      by_cases hd : ((acc.count + 1) % 2 = 0 ∨ (acc.count + 1) = total)
      · simp [hd]
      · simp [hd]
    · rw [ih2, hcnt, List.length_cons]
      omega

theorem sftq_step_notifies_cases (env : SftqEnv) (total : Nat) (t : SftqTrack)
    (acc : SftqAcc) :
    ((sftq_step env total t acc).notifies = acc.notifies ∧
      (sftq_step env total t acc).count = acc.count) ∨
    ((sftq_step env total t acc).count = acc.count + 1 ∧
      ((sftq_step env total t acc).notifies = acc.notifies ∨
       (sftq_step env total t acc).notifies =
         acc.notifies ++ [(acc.count + 1, total)])) := by
  rcases hi : t.invalid with _ | _
  · right
    obtain ⟨h1, h2⟩ := sftq_step_valid env total t acc hi
    refine ⟨h1, ?_⟩
    rw [h2]
    by_cases hd : ((acc.count + 1) % 2 = 0 ∨ (acc.count + 1) = total)
    · right; rw [if_pos hd]
    · left; rw [if_neg hd]; simp
  · left
    rw [sftq_step_invalid env total t acc hi]
    exact ⟨rfl, rfl⟩

theorem sftq_loop_notifies_mono (env : SftqEnv) (total : Nat) :
    ∀ (ts : List SftqTrack) (acc : SftqAcc),
      ((acc.notifies.map Prod.fst).Pairwise (· ≤ ·)) →
      (∀ e ∈ acc.notifies, e.1 ≤ acc.count) →
      (((sftq_loop env total ts acc).notifies.map Prod.fst).Pairwise (· ≤ ·)) := by
  intro ts
  induction ts with
  | nil => intro acc h1 _; exact h1
  | cons t rest ih =>
    intro acc h1 h2
    dsimp only [sftq_loop]
    rcases sftq_step_notifies_cases env total t acc with ⟨hs, hc⟩ | ⟨hc, hs⟩
    · exact ih _ (by rw [hs]; exact h1) (by rw [hs, hc]; exact h2)
    · rcases hs with hs | hs
      · exact ih _ (by rw [hs]; exact h1)
          (by rw [hs, hc]; intro e he; exact le_trans (h2 e he) (by omega))
      · refine ih _ ?_ ?_
        · rw [hs, List.map_append, List.pairwise_append]
          refine ⟨h1, by simp, ?_⟩
          intro x hx y hy
          simp only [List.map_cons, List.map_nil, List.mem_singleton] at hy
          subst hy
          rcases List.mem_map.mp hx with ⟨e, he, hfx⟩
          rw [← hfx]
          exact le_trans (h2 e he) (by omega)
        · rw [hs, hc]
          intro e he
          rcases List.mem_append.mp he with hL | hR
          · exact le_trans (h2 e hL) (by omega)
          · simp only [List.mem_singleton] at hR
            rw [hR]

theorem sftq_notifies_mono (env : SftqEnv) :
    (((spotify_first_time_query env).notifies.map Prod.fst).Pairwise (· ≤ ·)) := by
  unfold spotify_first_time_query
  split <;>
    exact sftq_loop_notifies_mono env env.tracks.length env.tracks
      ⟨[], [], [], [], 0⟩ (by simp) (by simp)

theorem sftq_notifies_characterization (env : SftqEnv)
    (hall : ∀ t ∈ env.tracks, t.invalid = false) :
    (spotify_first_time_query env).notifies =
      ((List.range' 1 env.tracks.length).filter
        (fun c => decide (c % 2 = 0 ∨ c = env.tracks.length))).map
        (fun c => (c, env.tracks.length)) := by
  unfold spotify_first_time_query
  have h := (sftq_loop_notifies env env.tracks.length env.tracks
    ⟨[], [], [], [], 0⟩ hall).1
  split <;> simpa using h

/-- Claim C4: in `spotify_enqueue`, once the consecutive-failure
counter has reached 10, the next iteration (whatever its track) breaks
out of the batch, appends the too-many-fails notice, and enqueues no
further tracks; any iteration whose fetched track list is nonempty (and
which passes the filter/limit gates without breaking) resets the
counter to zero; and in the concrete 12-track scenario whose first 11
tracks resolve to empty playable-track lists, the batch aborts with the
notice after the 10th consecutive failure, with 0 tracks enqueued and
only the 11 failing entries consumed. -/
theorem consecutive_failure_backoff :
    (∀ (env : EnqEnv) (total i : Nat) (t : EnqTrack) (acc : EnqAcc)
      (tl : List PyVal), t.fetch = .ok tl → acc.fails ≥ 10 →
      ∃ a', enq_step env total i t acc = .brk a' ∧
        a'.notices = acc.notices ++ [.tooManyFails] ∧
        a'.trackList = acc.trackList ∧ a'.enqueued = acc.enqueued) ∧
    (∀ (env : EnqEnv) (total i : Nat) (t : EnqTrack) (acc : EnqAcc),
      t.resolves env.youtube_cache env.now → acc.fails < 10 →
      ∃ a', enq_step env total i t acc = .cont a' ∧ a'.fails = 0) ∧
    ((spotify_enqueue c4Env).1.notices = [.tooManyFails] ∧
      (spotify_enqueue c4Env).1.enqueued = 0 ∧
      (spotify_enqueue c4Env).1.trackList = [] ∧
      (spotify_enqueue c4Env).1.entries.length = 11 ∧
      c4Env.tracks.length = 12) := by
  refine ⟨enq_step_aborts_after_ten, ?_, rfl, rfl, rfl, rfl, rfl⟩
  intro env total i t acc hres h10
  obtain ⟨a', h1, h2, _⟩ := enq_step_resolved env total i t acc hres h10
  exact ⟨a', h1, h2⟩

/-- Witness for C4 at concrete inputs: the abort step at `fails = 10`
and the counter reset on a resolving track. -/
theorem consecutive_failure_backoff_witness :
    (∃ a', enq_step c4Env 12 10 cEmptyTrack { enqAcc0 c4Env with fails := 10 } =
        .brk a' ∧
      a'.notices = { enqAcc0 c4Env with fails := 10 }.notices ++ [.tooManyFails] ∧
      a'.trackList = { enqAcc0 c4Env with fails := 10 }.trackList ∧
      a'.enqueued = { enqAcc0 c4Env with fails := 10 }.enqueued) ∧
    (∃ a', enq_step c4Env 12 0 cGoodTrack (enqAcc0 c4Env) = .cont a' ∧
      a'.fails = 0) :=
  ⟨consecutive_failure_backoff.1 c4Env 12 10 cEmptyTrack _ [] rfl (by decide),
   consecutive_failure_backoff.2.1 c4Env 12 0 cGoodTrack (enqAcc0 c4Env)
     ⟨by decide, by decide⟩ (by decide)⟩

/-- Claim C7: in `spotify_enqueue`, a track whose playable-track list
is nonempty but which the allowed-content filter rejects is skipped
without error — the iteration continues with the batch-level
`has_not_allowed` flag set and nothing enqueued — and for every
nonempty batch that does not abort with the track-enqueue error, the
nothing-found error is raised if and only if the batch ends with an
empty resolved track list and zero filter rejections: a batch in which
every track was filtered out yields zero tracks silently. -/
theorem content_filter_flag_and_nothing_found :
    (∀ (env : EnqEnv) (total i : Nat) (t : EnqTrack) (acc : EnqAcc),
      t.resolves env.youtube_cache env.now → acc.fails < 10 →
      t.allowed = false →
      ∃ a', enq_step env total i t acc = .cont a' ∧ a'.hasNotAllowed = true ∧
        a'.trackList = acc.trackList ∧ a'.enqueued = acc.enqueued) ∧
    (∀ env : EnqEnv, env.tracks ≠ [] →
      (spotify_enqueue env).2 ≠ .error .trackEnqueue →
      ((spotify_enqueue env).2 = .error .nothingFound ↔
        ((spotify_enqueue env).1.trackList = [] ∧
          (spotify_enqueue env).1.rejected = 0))) :=
  ⟨enq_step_rejection, spotify_enqueue_nothing_found_iff⟩

/-- Witness for C7 at a concrete one-track batch whose only track is
rejected by the filter: no error is raised and the rejection is
counted. -/
theorem content_filter_flag_and_nothing_found_witness :
    ((spotify_enqueue c7Env).2 = .error .nothingFound ↔
      ((spotify_enqueue c7Env).1.trackList = [] ∧
        (spotify_enqueue c7Env).1.rejected = 0)) ∧
    (spotify_enqueue c7Env).2 = .ok [] ∧
    (spotify_enqueue c7Env).1.rejected = 1 :=
  ⟨content_filter_flag_and_nothing_found.2 c7Env (List.cons_ne_nil _ _)
      (fun h => Except.noConfusion h), rfl, rfl⟩

/-- Claim C9 (amended): `_spotify_first_time_query` notifies at even
1-based track counts and on the final track (when no invalid-id track
is skipped), while `spotify_enqueue` notifies at even 0-based indices
`i % 2 = 0` (plus the unreachable `i = total_tracks`), so its final
track is notified only when it falls on an even index; in both loops
the notified `current` values are non-decreasing across the batch. -/
theorem progress_notification_schedule :
    (∀ env : SftqEnv, (∀ t ∈ env.tracks, t.invalid = false) →
      (spotify_first_time_query env).notifies =
        ((List.range' 1 env.tracks.length).filter
          (fun c => decide (c % 2 = 0 ∨ c = env.tracks.length))).map
          (fun c => (c, env.tracks.length))) ∧
    (∀ env : EnqEnv, (∀ t ∈ env.tracks, t.resolves env.youtube_cache env.now) →
      (spotify_enqueue env).1.notifies =
        ((List.range' 0 env.tracks.length).filter
          (fun i => decide (i % 2 = 0 ∨ i = env.tracks.length))).map
          (fun i => (i, env.tracks.length))) ∧
    (∀ env : SftqEnv,
      (((spotify_first_time_query env).notifies.map Prod.fst).Pairwise (· ≤ ·))) ∧
    (∀ env : EnqEnv,
      (((spotify_enqueue env).1.notifies.map Prod.fst).Pairwise (· ≤ ·))) := by
  refine ⟨sftq_notifies_characterization, ?_, sftq_notifies_mono,
    spotify_enqueue_notifies_mono⟩
  intro env hall
  unfold spotify_enqueue
  by_cases hl : env.tracks.length < 1
  · rw [if_pos hl]
    have h0 : env.tracks.length = 0 := by omega
    rw [h0]
    simp [enqAcc0]
  · rw [if_neg hl]
    have h := enq_loop_resolved_notifies env env.tracks.length env.tracks 0
      (enqAcc0 env) hall (by simp [enqAcc0])
    rcases hloop : enq_loop env env.tracks.length env.tracks 0 (enqAcc0 env)
      with ⟨acc, ex⟩
    rw [hloop] at h
    dsimp only at h
    cases ex <;> (
      dsimp only
      first
        | simpa [enqAcc0] using h
        | (by_cases hc : (acc.trackList.isEmpty && !acc.hasNotAllowed) = true
           · rw [if_pos hc]; simpa [enqAcc0] using h
           · rw [if_neg hc]
             dsimp only
             split <;> split <;> simpa [enqAcc0] using h))

/-- Witness for C9 at concrete 3-track batches: the notification
index sets evaluate to the characterized schedules. -/
theorem progress_notification_schedule_witness :
    (spotify_enqueue c9Env3).1.notifies =
      ((List.range' 0 c9Env3.tracks.length).filter
        (fun i => decide (i % 2 = 0 ∨ i = c9Env3.tracks.length))).map
        (fun i => (i, c9Env3.tracks.length)) ∧
    (spotify_first_time_query c9Sftq).notifies =
      ((List.range' 1 c9Sftq.tracks.length).filter
        (fun c => decide (c % 2 = 0 ∨ c = c9Sftq.tracks.length))).map
        (fun c => (c, c9Sftq.tracks.length)) :=
  ⟨progress_notification_schedule.2.1 c9Env3 (by decide),
   progress_notification_schedule.1 c9Sftq (by decide)⟩

/-- Counterexample to C9 as stated: a 2-track `spotify_enqueue` batch
in which both tracks resolve and are enqueued notifies only at index 0
— no notification is issued on the final (second) track, because the
loop tests the 0-based index, and `track_count == total_tracks` cannot
hold at notification time. -/
theorem enqueue_no_final_track_notification :
    (spotify_enqueue c9Env2).1.notifies = [(0, 2)] ∧
    c9Env2.tracks.length = 2 ∧
    ((spotify_enqueue c9Env2).1.notifies.any (fun e => e.1 == 1)) = false ∧
    (spotify_enqueue c9Env2).2 = .ok [PyVal.str "trk", PyVal.str "trk"] :=
  ⟨rfl, rfl, rfl, rfl⟩

theorem autoplay_go_all_invalid (tracks : List AutoTrack) (draws : Nat → Nat)
    (hinv : ∀ t ∈ tracks, candidateOK t = false) (hne : tracks ≠ []) :
    ∀ (tries k : Nat), 1 ≤ tries →
      autoplay_go tracks draws tries k = .error (k + (tries - 1)) := by
  intro tries
  induction tries with
  | zero => intro k h; omega
  | succ m ih =>
    intro k h
    cases m with
    | zero => simp [autoplay_go]
    | succ m2 =>
      show autoplay_go tracks draws (m2 + 1 + 1) k = _
      rw [autoplay_go]
      rw [if_neg (by omega)]
      have hlen : 0 < tracks.length := List.length_pos.mpr hne
      have hlt : draws k % tracks.length < tracks.length := Nat.mod_lt _ hlen
      have hmem : (tracks[draws k % tracks.length]?.getD default) ∈ tracks := by
        rw [List.getElem?_eq_getElem hlt]
        simp only [Option.getD_some]
        exact List.getElem_mem hlt
      rw [if_neg (by simp [hinv _ hmem])]
      rw [ih (k + 1) (by omega)]
      congr 1
      omega

/-- Claim C8 (amended): in `autoplay`, the remaining-tries counter is
seeded to the candidate count N but decremented at the top of each pass
BEFORE the draw, so an all-invalid pool of N > 1 candidates performs
only N - 1 draws before raising the no-valid-entry error; a pool of 5
with one valid candidate can still select it within those draws. -/
theorem autoplay_retry_exhaustion :
    (∀ (tracks : List AutoTrack) (draws : Nat → Nat),
      1 < tracks.length → (∀ t ∈ tracks, candidateOK t = false) →
      autoplay_select tracks draws = .error (tracks.length - 1)) ∧
    (autoplay_select c8OneValid (fun _ => 2) = .ok (c8Good, 1) ∧
      c8OneValid.length = 5) := by
  constructor
  · intro tracks draws hlen hinv
    unfold autoplay_select
    rw [if_neg (by omega)]
    have h := autoplay_go_all_invalid tracks draws hinv
      (by intro hx; rw [hx] at hlen; simp at hlen) tracks.length 0 (by omega)
    simpa using h
  · exact ⟨rfl, rfl⟩

/-- Witness for C8 at a concrete all-invalid 5-candidate pool. -/
theorem autoplay_retry_exhaustion_witness :
    autoplay_select c8AllInvalid (fun _ => 0) =
      .error (c8AllInvalid.length - 1) :=
  autoplay_retry_exhaustion.1 c8AllInvalid (fun _ => 0) (by decide) (by decide)

/-- Counterexample to C8 as stated: a pool of 5 all-invalid
candidates raises the error having performed only 4 draws, not the 5
tries the claim asserts. -/
theorem autoplay_five_invalid_four_draws :
    autoplay_select c8AllInvalid (fun _ => 0) = .error 4 ∧
    c8AllInvalid.length = 5 ∧ (4 : Nat) ≠ 5 :=
  ⟨rfl, rfl, by decide⟩
